import Mathlib

/-!
A shallow embedding of the timetable solver in `src/solver.py` (CP-SAT based
school timetable engine) together with proofs about its data model, model
construction, phased solve driver, and solution extraction.

Conventions of the embedding:
* machine integers become `Nat`/`ℤ`, the Python `float` multipliers become `ℚ`;
* the CP-SAT boolean decision variables of one model build are represented by a
  `Solution`, an assignment of boolean values to the presence variable of every
  task index and to every placement variable key `(task_idx, day, period)`
  (the dictionary `task_vars` of the source keys variables by
  `(lesson_idx, type, task_idx, day, period)`, but `lesson_idx` and the type
  are functions of `task_idx`, so keying by `(task_idx, day, period)` gives the
  same variable identity, including the sharing that occurs when two loop
  iterations produce the same dictionary key);
* the constraints emitted by the source are embedded as executable boolean
  checks on a `Solution`; a solution returned by the real solver satisfies all
  of them;
* Python's `None`-or-value idiom (`assigned_day`) is modelled with `Option`.
-/

namespace Sched

/-- `IntervalSlot` pydantic model: a break after a given period. -/
structure IntervalSlot where
  afterPeriod : Nat
  duration : Nat
deriving DecidableEq

/-- `DayOfWeek` pydantic model. -/
structure DayOfWeek where
  name : String
  abbreviation : String
deriving DecidableEq

/-- `SchoolConfig` pydantic model. -/
structure SchoolConfig where
  numberOfPeriods : Nat
  intervalSlots : List IntervalSlot
  daysOfWeek : List DayOfWeek
deriving DecidableEq

/-- `Lesson` pydantic model.  `color` keeps its source default. -/
structure Lesson where
  lesson_id : String
  lesson_name : String
  subjectIds : List String
  teacherIds : List String
  classIds : List String
  numberOfSingles : Nat
  numberOfDoubles : Nat
  color : String
deriving DecidableEq

/-- `Class` pydantic model; `grade` is a free-form label, modelled as a string. -/
structure Class where
  class_id : String
  name : String
  grade : String
deriving DecidableEq

/-- `SolverRequest` pydantic model. -/
structure SolverRequest where
  lessons : List Lesson
  classes : List Class
  config : SchoolConfig
  allowRelaxation : Bool
  maxTimeLimit : Nat
deriving DecidableEq

/-- `TimetableSlot` pydantic model: one output slot record. -/
structure TimetableSlot where
  classId : String
  lessonId : String
  day : String
  periodNumber : Nat
  isDoubleStart : Bool
  isDoubleEnd : Bool
deriving DecidableEq

/-- `UnplacedTask` pydantic model. -/
structure UnplacedTask where
  lessonId : String
  classId : String
  lessonName : String
  className : String
  teacherName : String
  taskType : String
  diagnostic : String
deriving DecidableEq

/-- The `self.stats` dictionary of the solver. -/
structure SolverStats where
  totalLessons : Nat
  totalTasks : Nat
  singlesCreated : Nat
  doublesCreated : Nat
  constraintsAdded : Nat
deriving DecidableEq

/-- `SolverResponse` pydantic model. -/
structure SolverResponse where
  success : Bool
  status : String
  slots : List TimetableSlot
  unplacedTasks : List UnplacedTask
  conflicts : Nat
  solvingTime : ℚ
  stats : SolverStats
  message : String
deriving DecidableEq

/-- CP-SAT solver status codes used by the driver. -/
inductive CpStatus where
  | OPTIMAL
  | FEASIBLE
  | INFEASIBLE
  | UNKNOWN
  | MODEL_INVALID
deriving DecidableEq

/-- A task is a single or a double occurrence of a lesson. -/
inductive TaskType where
  | single
  | double
deriving DecidableEq

/-- One entry of `self.task_info`: the metadata record for a task. -/
structure TaskInfo where
  task_idx : Nat
  lesson_idx : Nat
  lesson : Lesson
  classIds : List String
  type : TaskType
deriving DecidableEq

/-- `_calculate_valid_double_starts`: periods `1 ≤ p < numberOfPeriods` that are
not the `afterPeriod` of an interval slot. -/
def calculate_valid_double_starts (config : SchoolConfig) : List Nat :=
  (List.range' 1 (config.numberOfPeriods - 1)).filter fun period =>
    decide (period ∉ config.intervalSlots.map fun s => s.afterPeriod)

/-- `self.days`: the day names of the configuration, in input order. -/
def solver_days (req : SolverRequest) : List String :=
  req.config.daysOfWeek.map fun d => d.name

/-- `self.num_periods`. -/
def num_periods (req : SolverRequest) : Nat :=
  req.config.numberOfPeriods

/-- `self.valid_double_starts` of a request. -/
def valid_double_starts (req : SolverRequest) : List Nat :=
  calculate_valid_double_starts req.config

/-- The `task_info` records appended while looping over `(day, period)` for one
single task: the source appends the record exactly when
`day == self.days[0] and period == 1`. -/
def single_task_appends (days : List String) (nper : Nat) (r : TaskInfo) :
    List TaskInfo :=
  days.flatMap fun day =>
    (List.range' 1 nper).flatMap fun period =>
      if days.head? = some day ∧ period = 1 then [r] else []

/-- The `task_info` records appended for one double task: the source appends
exactly when `day == self.days[0] and period == self.valid_double_starts[0]`,
and the period loop runs over `valid_double_starts` (so nothing is appended
when that list is empty). -/
def double_task_appends (days : List String) (vds : List Nat) (r : TaskInfo) :
    List TaskInfo :=
  days.flatMap fun day =>
    vds.flatMap fun period =>
      if days.head? = some day ∧ vds.head? = some period then [r] else []

/-- The `task_info` records created for one lesson: `numberOfSingles` single
occurrences followed by `numberOfDoubles` double occurrences; the global task
counter advances for every occurrence whether or not a record was appended. -/
def lesson_tasks (days : List String) (nper : Nat) (vds : List Nat)
    (lesson_idx task0 : Nat) (lesson : Lesson) : List TaskInfo :=
  ((List.range lesson.numberOfSingles).flatMap fun k =>
    single_task_appends days nper
      ⟨task0 + k, lesson_idx, lesson, lesson.classIds, TaskType.single⟩)
  ++ ((List.range lesson.numberOfDoubles).flatMap fun k =>
    double_task_appends days vds
      ⟨task0 + lesson.numberOfSingles + k, lesson_idx, lesson,
        lesson.classIds, TaskType.double⟩)

/-- The lesson loop of `_create_variables`, carrying the lesson index and the
running task counter. -/
def create_variables_aux (days : List String) (nper : Nat) (vds : List Nat) :
    Nat → Nat → List Lesson → List TaskInfo
  | _, _, [] => []
  | lesson_idx, task0, lesson :: rest =>
      lesson_tasks days nper vds lesson_idx task0 lesson
        ++ create_variables_aux days nper vds (lesson_idx + 1)
            (task0 + lesson.numberOfSingles + lesson.numberOfDoubles) rest

/-- `_create_variables`: the `self.task_info` list built for a request. -/
def create_variables (req : SolverRequest) : List TaskInfo :=
  create_variables_aux (solver_days req) (num_periods req)
    (valid_double_starts req) 0 0 req.lessons

/-- `self.stats['totalTasks'] = len(self.task_info)`. -/
def total_tasks (req : SolverRequest) : Nat :=
  (create_variables req).length

/-- A valuation of the CP-SAT decision variables of one model build:
`pres t` is the value of `presence_task_t`, and `val t day period` the value of
the placement variable of task `t` at `(day, period)`. -/
structure Solution where
  pres : Nat → Bool
  val : Nat → String → Nat → Bool

/-- Evaluate a placement-variable key under a solution. -/
def apply_val (sol : Solution) (k : Nat × String × Nat) : Bool :=
  sol.val k.1 k.2.1 k.2.2

/-- The period domain a task's placement variables range over: all periods for
a single, the valid double starts for a double. -/
def type_periods (nper : Nat) (vds : List Nat) (t : TaskInfo) : List Nat :=
  match t.type with
  | TaskType.single => List.range' 1 nper
  | TaskType.double => vds

/-- The `(day, period)` slots for which placement variables of a task exist,
in the loop order of the source: all days, and for each day the task's period
domain. -/
def task_slots (days : List String) (nper : Nat) (vds : List Nat)
    (t : TaskInfo) : List (String × Nat) :=
  days.flatMap fun day => (type_periods nper vds t).map fun period =>
    (day, period)

/-- One day iteration of the assignment-search loop of `_extract_solution`:
scan this day's periods and overwrite `(assigned_day, assigned_period)` with
the first period whose variable is true, keeping the old value when none is. -/
def scan_day (sol : Solution) (nper : Nat) (vds : List Nat) (t : TaskInfo)
    (acc : Option (String × Nat)) (day : String) : Option (String × Nat) :=
  ((type_periods nper vds t).find?
      (fun period => sol.val t.task_idx day period)).elim acc
    (fun period => some (day, period))

/-- The body of the day loop: the source breaks out of the loop with
`if assigned_day:` — a Python truthiness test, so a found assignment whose day
name is the empty string does not stop the scan and a later day may overwrite
it. -/
def assignment_step (sol : Solution) (nper : Nat) (vds : List Nat)
    (t : TaskInfo) (acc : Option (String × Nat)) (day : String) :
    Option (String × Nat) :=
  match acc with
  | some (d, _) => if d = "" then scan_day sol nper vds t acc day else acc
  | none => scan_day sol nper vds t acc day

/-- The `(assigned_day, assigned_period)` of `_extract_solution` after the day
loop, `none` when no variable was found true (`assigned_day = None`). -/
def find_assignment (sol : Solution) (days : List String) (nper : Nat)
    (vds : List Nat) (t : TaskInfo) : Option (String × Nat) :=
  days.foldl (assignment_step sol nper vds t) none

/-- The `TimetableSlot` records emitted for one task by `_extract_solution`:
slots are created for every entry of the task's `classIds`; a single yields
one record, a double a start record at `p` and an end record at `p + 1`.
Emission is guarded by the source's `if assigned_day and assigned_period:`
truthiness test: nothing is emitted when the assigned day name is the empty
string or the assigned period is 0. -/
def slots_for_task (sol : Solution) (days : List String) (nper : Nat)
    (vds : List Nat) (t : TaskInfo) : List TimetableSlot :=
  if sol.pres t.task_idx then
    match find_assignment sol days nper vds t with
    | none => []
    | some (day, period) =>
        if day ≠ "" ∧ period ≠ 0 then
          t.classIds.flatMap fun cid =>
            match t.type with
            | TaskType.single =>
                [⟨cid, t.lesson.lesson_id, day, period, false, false⟩]
            | TaskType.double =>
                [⟨cid, t.lesson.lesson_id, day, period, true, false⟩,
                 ⟨cid, t.lesson.lesson_id, day, period + 1, false, true⟩]
        else []
  else []

/-- The `UnplacedTask` records emitted for one task: one per class when the
presence variable is false. -/
def unplaced_for_task (req : SolverRequest) (sol : Solution) (t : TaskInfo) :
    List UnplacedTask :=
  if sol.pres t.task_idx then []
  else
    t.classIds.map fun cid =>
      ⟨t.lesson.lesson_id, cid, t.lesson.lesson_name,
        (match req.classes.find? fun c => c.class_id == cid with
         | some c => c.grade ++ "-" ++ c.name
         | none => "Unknown"),
        "N/A",
        (match t.type with
         | TaskType.single => "single"
         | TaskType.double => "double"),
        "Unable to schedule due to constraints"⟩

/-- `_extract_solution`: the slots and the unplaced records of all tasks. -/
def extract_solution (req : SolverRequest) (sol : Solution) :
    List TimetableSlot × List UnplacedTask :=
  ((create_variables req).flatMap
      (slots_for_task sol (solver_days req) (num_periods req)
        (valid_double_starts req)),
   (create_variables req).flatMap (unplaced_for_task req sol))

/-- `_add_task_assignment_constraints`: for every task, the sum of its
placement variables equals its presence variable. -/
def check_task_assignment (req : SolverRequest) (sol : Solution) : Bool :=
  (create_variables req).all fun t =>
    (task_slots (solver_days req) (num_periods req) (valid_double_starts req)
        t).countP (fun dp => sol.val t.task_idx dp.1 dp.2)
      == (if sol.pres t.task_idx then 1 else 0)

/-- The placement-variable keys of a task whose occupancy window covers the
cell `(day, period)`, as collected by the overlap constraints: a single only at
the period itself; a double via a start at `period - 1` or at `period`, when
those starts are valid. -/
def cover_keys (vds : List Nat) (t : TaskInfo) (day : String) (period : Nat) :
    List (Nat × String × Nat) :=
  match t.type with
  | TaskType.single => [(t.task_idx, day, period)]
  | TaskType.double =>
      (if period - 1 ∈ vds then [(t.task_idx, day, period - 1)] else [])
        ++ (if period ∈ vds then [(t.task_idx, day, period)] else [])

/-- The set of all class ids over all lessons (`all_class_ids` in the source). -/
def all_class_ids (req : SolverRequest) : List String :=
  (req.lessons.flatMap fun l => l.classIds).dedup

/-- The tasks whose `classIds` contain the given class. -/
def relevant_tasks (req : SolverRequest) (cid : String) : List TaskInfo :=
  (create_variables req).filter fun t => decide (cid ∈ t.classIds)

/-- `class_period_vars`: all variables of tasks of a class that cover a cell. -/
def class_period_vars (req : SolverRequest) (cid : String) (day : String)
    (period : Nat) : List (Nat × String × Nat) :=
  (relevant_tasks req cid).flatMap fun t =>
    cover_keys (valid_double_starts req) t day period

/-- `_add_class_no_overlap_constraints`: for every class with at least two
relevant tasks and every cell covered by more than one variable, at most one of
the covering variables is true. -/
def check_class_no_overlap (req : SolverRequest) (sol : Solution) : Bool :=
  (all_class_ids req).all fun cid =>
    if (relevant_tasks req cid).length < 2 then true
    else
      (solver_days req).all fun day =>
        (List.range' 1 (num_periods req)).all fun period =>
          if (class_period_vars req cid day period).length > 1 then
            decide ((class_period_vars req cid day period).countP
              (apply_val sol) ≤ 1)
          else true

/-- All teacher ids over all lessons (the keys of `teacher_lessons`). -/
def teacher_ids (req : SolverRequest) : List String :=
  (req.lessons.flatMap fun l => l.teacherIds).dedup

/-- `teacher_lessons[tid]`: the lesson indices of a teacher, one entry per
occurrence of the teacher in a lesson's `teacherIds`. -/
def teacher_lesson_idxs (req : SolverRequest) (tid : String) : List Nat :=
  req.lessons.enum.flatMap fun li =>
    (li.2.teacherIds.filter fun x => x == tid).map fun _ => li.1

/-- `teacher_period_vars`: all variables of a teacher's lessons covering a cell. -/
def teacher_period_vars (req : SolverRequest) (tid : String) (day : String)
    (period : Nat) : List (Nat × String × Nat) :=
  (teacher_lesson_idxs req tid).flatMap fun li =>
    ((create_variables req).filter fun t => t.lesson_idx == li).flatMap fun t =>
      cover_keys (valid_double_starts req) t day period

/-- `_add_teacher_no_overlap_constraints`. -/
def check_teacher_no_overlap (req : SolverRequest) (sol : Solution) : Bool :=
  (teacher_ids req).all fun tid =>
    if (teacher_lesson_idxs req tid).length < 2 then true
    else
      (solver_days req).all fun day =>
        (List.range' 1 (num_periods req)).all fun period =>
          if (teacher_period_vars req tid day period).length > 1 then
            decide ((teacher_period_vars req tid day period).countP
              (apply_val sol) ≤ 1)
          else true

/-- The `(class, primary subject)` pairs of `class_subject_tasks`, in first
occurrence order (lessons with empty `subjectIds` are skipped). -/
def class_subject_pairs (req : SolverRequest) : List (String × String) :=
  ((create_variables req).flatMap fun t =>
    match t.lesson.subjectIds.head? with
    | some s => t.classIds.map fun c => (c, s)
    | none => []).dedup

/-- `class_subject_tasks[(c, s)]`: the tasks grouped under a pair, one entry
per occurrence of the class in the task's `classIds`. -/
def tasks_for_pair (req : SolverRequest) (c s : String) : List TaskInfo :=
  (create_variables req).flatMap fun t =>
    if t.lesson.subjectIds.head? = some s then
      (t.classIds.filter fun x => x == c).map fun _ => t
    else []

/-- The variables of a task on one day (all its periods for that day). -/
def day_keys (nper : Nat) (vds : List Nat) (t : TaskInfo) (day : String) :
    List (Nat × String × Nat) :=
  match t.type with
  | TaskType.single => (List.range' 1 nper).map fun p => (t.task_idx, day, p)
  | TaskType.double => vds.map fun p => (t.task_idx, day, p)

/-- The hard subject-distribution constraints added by `_set_objective`: for
every `(class, primary subject)` pair with more than one task and every day
whose collected variable list has more than one entry, the sum of those
variables is constrained to at most 1.  Each element of the result is the
variable list of one such constraint. -/
def hard_distribution_constraints (req : SolverRequest) :
    List (List (Nat × String × Nat)) :=
  (class_subject_pairs req).flatMap fun cs =>
    if (tasks_for_pair req cs.1 cs.2).length ≤ 1 then []
    else
      (solver_days req).flatMap fun day =>
        if ((tasks_for_pair req cs.1 cs.2).flatMap fun t =>
              day_keys (num_periods req) (valid_double_starts req) t day).length
            > 1 then
          [(tasks_for_pair req cs.1 cs.2).flatMap fun t =>
            day_keys (num_periods req) (valid_double_starts req) t day]
        else []

/-- Satisfaction of the hard distribution constraints. -/
def check_distribution (req : SolverRequest) (sol : Solution) : Bool :=
  (hard_distribution_constraints req).all fun dvars =>
    decide (dvars.countP (apply_val sol) ≤ 1)

/-- All hard constraints of one model build (assignment linkage, teacher and
class non-overlap, and the hard distribution constraints that `_set_objective`
adds in every phase). -/
def check_all_constraints (req : SolverRequest) (sol : Solution) : Bool :=
  check_task_assignment req sol && check_teacher_no_overlap req sol
    && check_class_no_overlap req sol && check_distribution req sol

/-- The Tier-1 weight of a task: doubles 2,000,000, singles 1,000,000, scaled
by the number of classes. -/
def placement_weight (t : TaskInfo) : Nat :=
  (match t.type with
   | TaskType.double => 2000000
   | TaskType.single => 1000000) * t.classIds.length

/-- The objective terms collected by `_set_objective`: `weight * presence` for
every task, and nothing else. -/
def placement_reward_terms (req : SolverRequest) : List (Nat × Nat) :=
  (create_variables req).map fun t => (placement_weight t, t.task_idx)

/-- `base_penalty = int(-10000 * penalty_multiplier)` (truncation toward zero).
The source computes this value but never uses it: no penalty term is ever added
to the objective. -/
def base_penalty (penalty_multiplier : ℚ) : ℤ :=
  if (-10000 : ℚ) * penalty_multiplier < 0 then
    ⌈(-10000 : ℚ) * penalty_multiplier⌉
  else ⌊(-10000 : ℚ) * penalty_multiplier⌋

/-- What `_set_objective` contributes to the model: the maximand terms and the
hard distribution constraints it adds. -/
structure ObjectiveResult where
  terms : List (Nat × Nat)
  distConstraints : List (List (Nat × String × Nat))
deriving DecidableEq

/-- `_set_objective(penalty_multiplier)`: the multiplier flows only into the
dead local `base_penalty`; the terms are the placement rewards and the hard
distribution constraints are added unconditionally. -/
def set_objective (req : SolverRequest) (penalty_multiplier : ℚ) :
    ObjectiveResult :=
  ⟨placement_reward_terms req, hard_distribution_constraints req⟩

/-- One phase's model build: `_create_variables`, `_add_constraints` (which do
not take the multiplier) and `_set_objective`. -/
structure BuiltModel where
  task_info : List TaskInfo
  objective : ObjectiveResult
deriving DecidableEq

/-- The model built by a phase with a given penalty multiplier. -/
def build_phase_model (req : SolverRequest) (penalty_multiplier : ℚ) :
    BuiltModel :=
  ⟨create_variables req, set_objective req penalty_multiplier⟩

/-- Phase 1 time budget: hardcoded `phase1_time = 3600`; the
`time_limit_seconds` argument of `solve` is not consulted. -/
def phase1_time (time_limit_seconds : Nat) : Nat := 3600

/-- Phase 2 time budget: hardcoded 1200 seconds. -/
def phase2_time (time_limit_seconds : Nat) : Nat := 1200

/-- Phase 3 time budget: hardcoded 600 seconds. -/
def phase3_time (time_limit_seconds : Nat) : Nat := 600

/-- The per-phase time limits configured during a solve that was entered with
the given `time_limit_seconds` (the request's `maxTimeLimit`). -/
def phase_time_limits (time_limit_seconds : Nat) : Nat × Nat × Nat :=
  (phase1_time time_limit_seconds, phase2_time time_limit_seconds,
    phase3_time time_limit_seconds)

/-- The solver parameters assigned before a phase's `Solve` call; a field is
`none` when the phase does not assign that parameter (a fresh `CpSolver` is
created for phases 2 and 3, so unassigned parameters keep library defaults). -/
structure SolverParams where
  max_time_in_seconds : Option Nat
  num_search_workers : Option Nat
  log_search_progress : Option Bool
  random_seed : Option Nat
  relative_gap_limit : Option ℚ
  search_branching : Option String
  interleave_search : Option Bool
deriving DecidableEq

/-- The parameters assigned before the Phase-1 solve. -/
def phase1_solver_params : SolverParams :=
  ⟨some 3600, some 4, some true, some 42, some 0, some "PORTFOLIO_SEARCH",
    some true⟩

/-- The parameters assigned on the fresh Phase-2 solver. -/
def phase2_solver_params : SolverParams :=
  ⟨some 1200, some 4, some true, none, none, none, none⟩

/-- The parameters assigned on the fresh Phase-3 solver. -/
def phase3_solver_params : SolverParams :=
  ⟨some 600, some 4, some true, none, none, none, none⟩

/-- Number of class no-overlap constraints added (cells with more than one
covering variable, for classes with at least two relevant tasks). -/
def class_constraint_count (req : SolverRequest) : Nat :=
  ((all_class_ids req).map fun cid =>
    if (relevant_tasks req cid).length < 2 then 0
    else
      ((solver_days req).map fun day =>
        ((List.range' 1 (num_periods req)).filter fun period =>
          decide ((class_period_vars req cid day period).length > 1)).length).sum).sum

/-- Number of teacher no-overlap constraints added. -/
def teacher_constraint_count (req : SolverRequest) : Nat :=
  ((teacher_ids req).map fun tid =>
    if (teacher_lesson_idxs req tid).length < 2 then 0
    else
      ((solver_days req).map fun day =>
        ((List.range' 1 (num_periods req)).filter fun period =>
          decide ((teacher_period_vars req tid day period).length > 1)).length).sum).sum

/-- The statistics of one model build (`constraintsAdded` counts the
constraints of `_add_constraints`; in the source the counter accumulates
across phase rebuilds, here it is given for a single build). -/
def solver_stats (req : SolverRequest) : SolverStats :=
  ⟨req.lessons.length,
    (create_variables req).length,
    (create_variables req).countP fun t => decide (t.type = TaskType.single),
    (create_variables req).countP fun t => decide (t.type = TaskType.double),
    (create_variables req).length + teacher_constraint_count req
      + class_constraint_count req⟩

/-- `total_slots` of the diagnostics: days times periods. -/
def total_slot_count (req : SolverRequest) : Nat :=
  (solver_days req).length * num_periods req

/-- Look up a lesson by id (`next(l for l in self.lessons if ...)`). -/
def find_lesson (req : SolverRequest) (lessonId : String) : Option Lesson :=
  req.lessons.find? fun l => l.lesson_id == lessonId

/-- Total busy entries recorded for a teacher from the scheduled slots: one per
scheduled slot per occurrence of the teacher in the slot's lesson (slots whose
lesson cannot be found are skipped). -/
def teacher_busy_count (req : SolverRequest) (slots : List TimetableSlot)
    (tid : String) : Nat :=
  (slots.map fun s =>
    match find_lesson req s.lessonId with
    | some l => l.teacherIds.count tid
    | none => 0).sum

/-- Total busy entries recorded for a class from the scheduled slots. -/
def class_busy_count (req : SolverRequest) (slots : List TimetableSlot)
    (cid : String) : Nat :=
  (slots.filter fun s =>
    (find_lesson req s.lessonId).isSome && s.classId == cid).length

/-- Periods on a day on which a teacher is busy. -/
def teacher_busy_on (req : SolverRequest) (slots : List TimetableSlot)
    (tid day : String) : List Nat :=
  slots.filterMap fun s =>
    match find_lesson req s.lessonId with
    | some l =>
        if l.teacherIds.contains tid && s.day == day then some s.periodNumber
        else none
    | none => none

/-- Periods on a day on which a class is busy. -/
def class_busy_on (req : SolverRequest) (slots : List TimetableSlot)
    (cid day : String) : List Nat :=
  slots.filterMap fun s =>
    if (find_lesson req s.lessonId).isSome && s.classId == cid && s.day == day
    then some s.periodNumber else none

/-- Size of the intersection of the teacher's and the class's free slots. -/
def free_overlap_count (req : SolverRequest) (slots : List TimetableSlot)
    (tid cid : String) : Nat :=
  ((solver_days req).flatMap fun day =>
    (List.range' 1 (num_periods req)).filter fun period =>
      decide (period ∉ teacher_busy_on req slots tid day)
        && decide (period ∉ class_busy_on req slots cid day)).length

/-- Render a utilization ratio as a percentage with no decimals, as the
source's format string does. -/
def fmt_pct (q : ℚ) : String :=
  toString (Rat.floor (q * 100 + 1 / 2))

/-- Render a percentage with one decimal, as the source's format string does. -/
def fmt_pct1 (q : ℚ) : String :=
  toString (Rat.floor (q * 10 + 1 / 2) / 10) ++ "."
    ++ toString ((Rat.floor (q * 10 + 1 / 2)).natAbs % 10)

/-- Last six characters of an id (`teacher_id[-6:]`). -/
def last_six (s : String) : String :=
  ⟨(s.data.reverse.take 6).reverse⟩

/-- `_diagnose_unplaced_tasks` for one task: choose the diagnostic string from
the utilization thresholds of the source. -/
def diagnose_task (req : SolverRequest) (slots : List TimetableSlot)
    (task : UnplacedTask) : UnplacedTask :=
  match find_lesson req task.lessonId with
  | none =>
      ⟨task.lessonId, task.classId, task.lessonName, task.className,
        task.teacherName, task.taskType, "Lesson not found in system"⟩
  | some lesson =>
      let t_util : ℚ :=
        if lesson.teacherIds ≠ [] then
          (if total_slot_count req > 0 then
            (teacher_busy_count req slots (lesson.teacherIds.headD "") : ℚ)
              / (total_slot_count req : ℚ)
          else 0)
        else 0
      let c_util : ℚ :=
        if total_slot_count req > 0 then
          (class_busy_count req slots task.classId : ℚ)
            / (total_slot_count req : ℚ)
        else 0
      let tname : String :=
        if lesson.teacherIds ≠ [] then
          "Teacher " ++ last_six (lesson.teacherIds.headD "")
        else "Unknown Teacher"
      let cname : String := task.className
      let diag : String :=
        if t_util ≥ 1 then
          "Placement blocked: " ++ tname ++ " is 100% busy across all periods"
        else if c_util ≥ 1 then
          "Placement blocked: " ++ cname
            ++ " schedule is completely full (100% utilization)"
        else if t_util > 9 / 10 then
          "Placement blocked: " ++ tname ++ " workload critically high ("
            ++ fmt_pct t_util ++ "% utilization)"
        else if c_util > 9 / 10 then
          "Placement blocked: " ++ cname ++ " schedule nearly full ("
            ++ fmt_pct c_util ++ "% utilization)"
        else if t_util > 7 / 10 ∧ c_util > 7 / 10 then
          let ov := free_overlap_count req slots (lesson.teacherIds.headD "")
            task.classId
          let reqd : Nat := if task.taskType == "double" then 2 else 1
          if ov = 0 then
            "Placement blocked: " ++ tname
              ++ " is 100% busy during all periods where " ++ cname
              ++ " has free slots"
          else if ov < reqd then
            "Placement blocked: Only " ++ toString ov
              ++ " overlapping free slot(s), but " ++ toString reqd
              ++ " consecutive needed for " ++ task.taskType
          else
            "Placement blocked: Interval breaks or subject distribution"
              ++ " constraints prevent scheduling despite " ++ toString ov
              ++ " free overlapping slots"
        else if t_util < 3 / 10 then
          "Placement blocked: Insufficient overall demand or over-constrained"
            ++ " problem (teacher only " ++ fmt_pct t_util ++ "% utilized)"
        else
          "Placement blocked: Constraints prevent scheduling (teacher "
            ++ fmt_pct t_util ++ "%, class " ++ fmt_pct c_util ++ "% utilized)"
      ⟨task.lessonId, task.classId, task.lessonName, task.className,
        task.teacherName, task.taskType, diag⟩

/-- `_diagnose_unplaced_tasks`. -/
def diagnose_unplaced_tasks (req : SolverRequest)
    (unplaced : List UnplacedTask) (slots : List TimetableSlot) :
    List UnplacedTask :=
  unplaced.map (diagnose_task req slots)

/-- Total required period slots: one per class for a single, two per class for
a double. -/
def total_required_slots (req : SolverRequest) : Nat :=
  ((create_variables req).map fun t =>
    (match t.type with
     | TaskType.single => 1
     | TaskType.double => 2) * t.classIds.length).sum

/-- The coverage ratio used in the response message. -/
def coverage_pct (req : SolverRequest) (placed : Nat) : ℚ :=
  if total_required_slots req > 0 then
    (placed : ℚ) / (total_required_slots req : ℚ) * 100
  else 0

/-- The name of a status code, for the failure message. -/
def status_name : CpStatus → String
  | CpStatus.OPTIMAL => "OPTIMAL"
  | CpStatus.FEASIBLE => "FEASIBLE"
  | CpStatus.INFEASIBLE => "INFEASIBLE"
  | CpStatus.UNKNOWN => "UNKNOWN"
  | CpStatus.MODEL_INVALID => "MODEL_INVALID"

/-- `_build_response`: extract the solution when none was passed in, diagnose
the unplaced tasks, and map the status code to `success` and the status
string — `"success"` for `OPTIMAL`/`FEASIBLE` and `"failed"` otherwise. -/
def build_response (req : SolverRequest) (sol : Solution) (st : CpStatus)
    (solving_time : ℚ) (slots? : Option (List TimetableSlot))
    (unplaced? : Option (List UnplacedTask)) : SolverResponse :=
  let extracted : List TimetableSlot × List UnplacedTask :=
    match slots?, unplaced? with
    | some s, some u => (s, u)
    | _, _ =>
        if st = CpStatus.OPTIMAL ∨ st = CpStatus.FEASIBLE then
          extract_solution req sol
        else ([], [])
  let slots := extracted.1
  let unplaced :=
    if extracted.2.length > 0 then
      diagnose_unplaced_tasks req extracted.2 slots
    else extracted.2
  let success : Bool := decide (st = CpStatus.OPTIMAL ∨ st = CpStatus.FEASIBLE)
  let message : String :=
    match st with
    | CpStatus.OPTIMAL =>
        "Optimal solution! Placed " ++ toString slots.length ++ "/"
          ++ toString (total_required_slots req) ++ " periods ("
          ++ fmt_pct1 (coverage_pct req slots.length) ++ "%)"
    | CpStatus.FEASIBLE =>
        "Feasible solution. Placed " ++ toString slots.length ++ "/"
          ++ toString (total_required_slots req) ++ " periods ("
          ++ fmt_pct1 (coverage_pct req slots.length) ++ "%)"
    | _ => "No solution found (status: " ++ status_name st ++ ")"
  ⟨success, if success then "success" else "failed", slots, unplaced, 0,
    solving_time, solver_stats req, message⟩

/-- The `UNKNOWN`-status branch of `solve`: extract whatever partial solution
exists; if it has any slot, return `_build_response(FEASIBLE, ...)` with it,
otherwise `_build_response(INFEASIBLE, ..., [], [])`. -/
def handle_unknown (req : SolverRequest) (sol : Solution)
    (solving_time : ℚ) : SolverResponse :=
  if (extract_solution req sol).1.length > 0 then
    build_response req sol CpStatus.FEASIBLE solving_time
      (some (extract_solution req sol).1) (some (extract_solution req sol).2)
  else
    build_response req sol CpStatus.INFEASIBLE solving_time (some []) (some [])

/-! ### Concrete example inputs used by witnesses and counterexamples -/

/-- A lesson with two singles of one subject for one class. -/
def lesson_two_singles : Lesson :=
  ⟨"L1", "Lesson 1", ["S1"], ["T1"], ["C1"], 2, 0, "#3B82F6"⟩

/-- One class, one day of two periods, one lesson with two singles of the same
subject: the hard distribution constraint allows at most one of them per day,
so a Phase-1 solve over one day must leave one unplaced. -/
def ex_req_two_singles : SolverRequest :=
  ⟨[lesson_two_singles], [⟨"C1", "A", "Grade 10"⟩],
    ⟨2, [], [⟨"Monday", "Mon"⟩]⟩, true, 180⟩

/-- A solution placing only task 0, at (Monday, 1). -/
def ex_sol_first_single : Solution :=
  ⟨fun t => t == 0, fun t d p => t == 0 && d == "Monday" && p == 1⟩

/-- A lesson whose `classIds` lists the same class twice and whose
`subjectIds` is empty (so no distribution constraint is generated for it). -/
def lesson_dup_class : Lesson :=
  ⟨"L1", "Lesson 1", [], ["T1"], ["A", "A"], 1, 0, "#3B82F6"⟩

/-- A request whose single lesson repeats a class id. -/
def ex_req_dup_class : SolverRequest :=
  ⟨[lesson_dup_class], [⟨"A", "A", "Grade 10"⟩],
    ⟨2, [], [⟨"Monday", "Mon"⟩]⟩, true, 180⟩

/-- A parallel lesson taught to classes `A` and `B` simultaneously. -/
def lesson_parallel : Lesson :=
  ⟨"L1", "Lesson 1", ["S1"], ["T1"], ["A", "B"], 1, 0, "#3B82F6"⟩

/-- Scenario S4: one parallel lesson with one single. -/
def ex_req_parallel : SolverRequest :=
  ⟨[lesson_parallel], [⟨"A", "A", "Grade 10"⟩, ⟨"B", "B", "Grade 10"⟩],
    ⟨2, [], [⟨"Monday", "Mon"⟩]⟩, true, 180⟩

/-- The single task generated for `ex_req_parallel`. -/
def ex_task_parallel : TaskInfo :=
  ⟨0, 0, lesson_parallel, ["A", "B"], TaskType.single⟩

/-- A lesson with one double for one class. -/
def lesson_one_double : Lesson :=
  ⟨"L1", "Lesson 1", ["S1"], ["T1"], ["A"], 0, 1, "#3B82F6"⟩

/-- One day of three periods with an interval after period 2, one lesson with
one double; the only valid double start is period 1. -/
def ex_req_double : SolverRequest :=
  ⟨[lesson_one_double], [⟨"A", "A", "Grade 10"⟩],
    ⟨3, [⟨2, 30⟩], [⟨"Monday", "Mon"⟩]⟩, true, 180⟩

/-- The double task generated for `ex_req_double`. -/
def ex_task_double : TaskInfo :=
  ⟨0, 0, lesson_one_double, ["A"], TaskType.double⟩

/-- Two periods with an interval after period 1: `valid_double_starts` is
empty, so the double task of the lesson produces no `task_info` record. -/
def ex_req_no_double_starts : SolverRequest :=
  ⟨[lesson_one_double], [⟨"A", "A", "Grade 10"⟩],
    ⟨2, [⟨1, 30⟩], [⟨"Monday", "Mon"⟩]⟩, true, 180⟩

/-- A lesson with one single and one double. -/
def lesson_mixed : Lesson :=
  ⟨"L1", "Lesson 1", ["S1"], ["T1"], ["A"], 1, 1, "#3B82F6"⟩

/-- One day of three periods with an interval after period 2 and a mixed
lesson; `valid_double_starts = [1]` is nonempty. -/
def ex_req_mixed : SolverRequest :=
  ⟨[lesson_mixed], [⟨"A", "A", "Grade 10"⟩],
    ⟨3, [⟨2, 30⟩], [⟨"Monday", "Mon"⟩]⟩, true, 180⟩

/-- A lesson with one single for class `A`. -/
def lesson_one_single : Lesson :=
  ⟨"L1", "Lesson 1", ["S1"], ["T1"], ["A"], 1, 0, "#3B82F6"⟩

/-- A request whose only day is named by the empty string: the source's
`if assigned_day:` and `if assigned_day and assigned_period:` truthiness
tests are falsy for it. -/
def ex_req_empty_day : SolverRequest :=
  ⟨[lesson_one_single], [⟨"A", "A", "Grade 10"⟩],
    ⟨2, [], [⟨"", "X"⟩]⟩, true, 180⟩

/-- The single task generated for `ex_req_empty_day`. -/
def ex_task_empty_day : TaskInfo :=
  ⟨0, 0, lesson_one_single, ["A"], TaskType.single⟩

/-- A solution placing task 0 at period 1 of the day named `""`. -/
def ex_sol_empty_day : Solution :=
  ⟨fun t => t == 0, fun t d p => t == 0 && d == "" && p == 1⟩

/-- A lesson with one double whose `classIds` repeats class `A` and whose
`subjectIds` is empty (so no distribution constraint is generated). -/
def lesson_dup_double : Lesson :=
  ⟨"L1", "Lesson 1", [], ["T1"], ["A", "A"], 0, 1, "#3B82F6"⟩

/-- One day of three periods with an interval after period 2 and the
duplicate-class double lesson; `valid_double_starts = [1]`. -/
def ex_req_dup_double : SolverRequest :=
  ⟨[lesson_dup_double], [⟨"A", "A", "Grade 10"⟩],
    ⟨3, [⟨2, 30⟩], [⟨"Monday", "Mon"⟩]⟩, true, 180⟩

/-- The double task generated for `ex_req_dup_double`. -/
def ex_task_dup_double : TaskInfo :=
  ⟨0, 0, lesson_dup_double, ["A", "A"], TaskType.double⟩

end Sched

namespace Sched

/-! ### Supporting lemmas -/

theorem mem_calculate_valid_double_starts {config : SchoolConfig} {p : Nat} :
    p ∈ calculate_valid_double_starts config ↔
      1 ≤ p ∧ p < config.numberOfPeriods ∧
        p ∉ config.intervalSlots.map fun s => s.afterPeriod := by
  simp only [calculate_valid_double_starts, List.mem_filter,
    List.mem_range'_1, decide_eq_true_eq]
  constructor
  · rintro ⟨⟨h1, h2⟩, h3⟩
    exact ⟨h1, by omega, h3⟩
  · rintro ⟨h1, h2, h3⟩
    exact ⟨⟨h1, by omega⟩, h3⟩

theorem valid_double_starts_nodup (config : SchoolConfig) :
    (calculate_valid_double_starts config).Nodup :=
  (List.nodup_range' 1 (config.numberOfPeriods - 1)).filter _

theorem valid_double_starts_bounds {req : SolverRequest} {p : Nat}
    (h : p ∈ valid_double_starts req) : 1 ≤ p ∧ p + 1 ≤ num_periods req := by
  have := mem_calculate_valid_double_starts.mp h
  exact ⟨this.1, by have := this.2.1; exact this⟩

theorem flatMap_eq_of_unique {α β : Type _} {l : List α} {a : α}
    {f : α → List β} (ha : a ∈ l) (hnd : l.Nodup)
    (hz : ∀ b ∈ l, b ≠ a → f b = []) : l.flatMap f = f a := by
  induction l with
  | nil => cases ha
  | cons x t ih =>
      rw [List.flatMap_cons]
      rcases List.mem_cons.mp ha with h | h
      · subst h
        have ht : t.flatMap f = [] := by
          rw [List.flatMap_eq_nil_iff]
          intro b hb
          exact hz b (List.mem_cons_of_mem _ hb)
            (fun hba => (List.nodup_cons.mp hnd).1 (hba ▸ hb))
        rw [ht, List.append_nil]
      · have hx : f x = [] := by
          apply hz x (List.mem_cons_self x t)
          intro hxa
          exact (List.nodup_cons.mp hnd).1 (hxa.symm ▸ h)
        rw [hx, List.nil_append]
        exact ih h (List.nodup_cons.mp hnd).2
          (fun b hb => hz b (List.mem_cons_of_mem _ hb))

theorem flatMap_singleton_fun {α β : Type _} {l : List α} {f : α → List β}
    {g : α → β} (hf : ∀ a ∈ l, f a = [g a]) : l.flatMap f = l.map g := by
  induction l with
  | nil => simp
  | cons x t ih =>
      rw [List.flatMap_cons, hf x (List.mem_cons_self x t), List.map_cons,
        List.singleton_append,
        ih (fun a ha => hf a (List.mem_cons_of_mem _ ha))]

theorem mem_single_task_appends {days : List String} {nper : Nat}
    {r x : TaskInfo} (h : x ∈ single_task_appends days nper r) : x = r := by
  simp only [single_task_appends, List.mem_flatMap] at h
  obtain ⟨day, -, period, -, hx⟩ := h
  split at hx
  · simpa using hx
  · simp at hx

theorem mem_double_task_appends {days : List String} {vds : List Nat}
    {r x : TaskInfo} (h : x ∈ double_task_appends days vds r) : x = r := by
  simp only [double_task_appends, List.mem_flatMap] at h
  obtain ⟨day, -, period, -, hx⟩ := h
  split at hx
  · simpa using hx
  · simp at hx

theorem single_task_appends_eq {days : List String} {nper : Nat}
    {r : TaskInfo} (hnd : days.Nodup) :
    single_task_appends days nper r =
      if days ≠ [] ∧ 1 ≤ nper then [r] else [] := by
  cases days with
  | nil => simp [single_task_appends]
  | cons d t =>
      rcases Nat.lt_or_ge nper 1 with hp | hp
      · have h0 : nper = 0 := by omega
        subst h0
        rw [if_neg (by rintro ⟨-, h2⟩; omega)]
        simp [single_task_appends]
      · rw [if_pos ⟨List.cons_ne_nil d t, hp⟩]
        unfold single_task_appends
        rw [flatMap_eq_of_unique (List.mem_cons_self d t) hnd (by
          intro b hb hbd
          rw [List.flatMap_eq_nil_iff]
          intro p hp'
          rw [if_neg]
          rintro ⟨h1, -⟩
          exact hbd (by simpa using h1.symm))]
        rw [flatMap_eq_of_unique
          (show (1 : Nat) ∈ List.range' 1 nper by
            rw [List.mem_range'_1]; omega)
          (List.nodup_range' 1 nper) (by
            intro b hb hb1
            rw [if_neg]
            rintro ⟨-, h2⟩
            exact hb1 h2)]
        rw [if_pos ⟨rfl, rfl⟩]

theorem double_task_appends_eq {days : List String} {vds : List Nat}
    {r : TaskInfo} (hnd : days.Nodup) (hvnd : vds.Nodup) :
    double_task_appends days vds r =
      if days ≠ [] ∧ vds ≠ [] then [r] else [] := by
  cases days with
  | nil => simp [double_task_appends]
  | cons d t =>
      cases vds with
      | nil =>
          rw [if_neg (by rintro ⟨-, h2⟩; exact h2 rfl)]
          simp [double_task_appends]
      | cons v vt =>
          rw [if_pos ⟨List.cons_ne_nil d t, List.cons_ne_nil v vt⟩]
          unfold double_task_appends
          rw [flatMap_eq_of_unique (List.mem_cons_self d t) hnd (by
            intro b hb hbd
            rw [List.flatMap_eq_nil_iff]
            intro p hp'
            rw [if_neg]
            rintro ⟨h1, -⟩
            exact hbd (by simpa using h1.symm))]
          rw [flatMap_eq_of_unique (List.mem_cons_self v vt) hvnd (by
            intro b hb hbv
            rw [if_neg]
            rintro ⟨-, h2⟩
            exact hbv (by simpa using h2.symm))]
          rw [if_pos ⟨rfl, rfl⟩]

theorem lesson_tasks_eq {days : List String} {nper : Nat} {vds : List Nat}
    {li t0 : Nat} {lesson : Lesson} (hnd : days.Nodup) (hvnd : vds.Nodup) :
    lesson_tasks days nper vds li t0 lesson =
      (if days ≠ [] ∧ 1 ≤ nper then
        (List.range lesson.numberOfSingles).map fun k =>
          (⟨t0 + k, li, lesson, lesson.classIds, TaskType.single⟩ : TaskInfo)
      else [])
      ++ (if days ≠ [] ∧ vds ≠ [] then
        (List.range lesson.numberOfDoubles).map fun k =>
          (⟨t0 + lesson.numberOfSingles + k, li, lesson, lesson.classIds,
            TaskType.double⟩ : TaskInfo)
      else []) := by
  unfold lesson_tasks
  congr 1
  · by_cases hc : days ≠ [] ∧ 1 ≤ nper
    · rw [if_pos hc]
      apply flatMap_singleton_fun
      intro k _
      rw [single_task_appends_eq hnd, if_pos hc]
    · rw [if_neg hc, List.flatMap_eq_nil_iff]
      intro k _
      rw [single_task_appends_eq hnd, if_neg hc]
  · by_cases hc : days ≠ [] ∧ vds ≠ []
    · rw [if_pos hc]
      apply flatMap_singleton_fun
      intro k _
      rw [double_task_appends_eq hnd hvnd, if_pos hc]
    · rw [if_neg hc, List.flatMap_eq_nil_iff]
      intro k _
      rw [double_task_appends_eq hnd hvnd, if_neg hc]

theorem mem_lesson_tasks {days : List String} {nper : Nat} {vds : List Nat}
    {li t0 : Nat} {lesson : Lesson} {x : TaskInfo}
    (h : x ∈ lesson_tasks days nper vds li t0 lesson) :
    x.lesson = lesson ∧ x.classIds = lesson.classIds ∧
      t0 ≤ x.task_idx ∧
      x.task_idx < t0 + lesson.numberOfSingles + lesson.numberOfDoubles := by
  unfold lesson_tasks at h
  rcases List.mem_append.mp h with h | h
  · simp only [List.mem_flatMap] at h
    obtain ⟨k, hk, hx⟩ := h
    have hxr := mem_single_task_appends hx
    subst hxr
    have := List.mem_range.mp hk
    refine ⟨rfl, rfl, ?_, ?_⟩
    · show t0 ≤ t0 + k
      omega
    · show t0 + k < t0 + lesson.numberOfSingles + lesson.numberOfDoubles
      omega
  · simp only [List.mem_flatMap] at h
    obtain ⟨k, hk, hx⟩ := h
    have hxr := mem_double_task_appends hx
    subst hxr
    have := List.mem_range.mp hk
    refine ⟨rfl, rfl, ?_, ?_⟩
    · show t0 ≤ t0 + lesson.numberOfSingles + k
      omega
    · show t0 + lesson.numberOfSingles + k
        < t0 + lesson.numberOfSingles + lesson.numberOfDoubles
      omega

theorem mem_create_variables_aux {days : List String} {nper : Nat}
    {vds : List Nat} :
    ∀ {ls : List Lesson} {li t0 : Nat} {x : TaskInfo},
      x ∈ create_variables_aux days nper vds li t0 ls →
      x.lesson ∈ ls ∧ x.classIds = x.lesson.classIds ∧ t0 ≤ x.task_idx := by
  intro ls
  induction ls with
  | nil =>
      intro li t0 x h
      simp [create_variables_aux] at h
  | cons l t ih =>
      intro li t0 x h
      rw [create_variables_aux] at h
      rcases List.mem_append.mp h with h | h
      · obtain ⟨hl, hc, hlo, -⟩ := mem_lesson_tasks h
        refine ⟨hl ▸ List.mem_cons_self l t, ?_, hlo⟩
        rw [hc, hl]
      · obtain ⟨h1, h2, h3⟩ := ih h
        exact ⟨List.mem_cons_of_mem _ h1, h2, by omega⟩

theorem lesson_tasks_task_idx_nodup {days : List String} {nper : Nat}
    {vds : List Nat} {li t0 : Nat} {lesson : Lesson} (hnd : days.Nodup)
    (hvnd : vds.Nodup) :
    ((lesson_tasks days nper vds li t0 lesson).map fun x => x.task_idx).Nodup := by
  rw [lesson_tasks_eq hnd hvnd, List.map_append]
  apply List.Nodup.append
  · by_cases hc : days ≠ [] ∧ 1 ≤ nper
    · rw [if_pos hc, List.map_map]
      exact List.Nodup.map (fun a b h => by simpa using h)
        (List.nodup_range lesson.numberOfSingles)
    · rw [if_neg hc]
      simp
  · by_cases hc : days ≠ [] ∧ vds ≠ []
    · rw [if_pos hc, List.map_map]
      exact List.Nodup.map (fun a b h => by simpa using h)
        (List.nodup_range lesson.numberOfDoubles)
    · rw [if_neg hc]
      simp
  · intro n hn1 hn2
    have h1 : n < t0 + lesson.numberOfSingles := by
      rcases List.mem_map.mp hn1 with ⟨x, hx, hxe⟩
      by_cases hc : days ≠ [] ∧ 1 ≤ nper
      · rw [if_pos hc] at hx
        rcases List.mem_map.mp hx with ⟨k, hk, hke⟩
        have := List.mem_range.mp hk
        subst hke
        simp at hxe
        omega
      · rw [if_neg hc] at hx
        cases hx
    have h2 : t0 + lesson.numberOfSingles ≤ n := by
      rcases List.mem_map.mp hn2 with ⟨x, hx, hxe⟩
      by_cases hc : days ≠ [] ∧ vds ≠ []
      · rw [if_pos hc] at hx
        rcases List.mem_map.mp hx with ⟨k, hk, hke⟩
        subst hke
        simp at hxe
        omega
      · rw [if_neg hc] at hx
        cases hx
    omega

theorem create_variables_aux_task_idx_nodup {days : List String} {nper : Nat}
    {vds : List Nat} (hnd : days.Nodup) (hvnd : vds.Nodup) :
    ∀ (ls : List Lesson) (li t0 : Nat),
      ((create_variables_aux days nper vds li t0 ls).map
        fun x => x.task_idx).Nodup := by
  intro ls
  induction ls with
  | nil =>
      intro li t0
      simp [create_variables_aux]
  | cons l t ih =>
      intro li t0
      rw [create_variables_aux, List.map_append]
      apply List.Nodup.append (lesson_tasks_task_idx_nodup hnd hvnd)
        (ih (li + 1) (t0 + l.numberOfSingles + l.numberOfDoubles))
      intro n hn1 hn2
      obtain ⟨x, hx, hxe⟩ := List.mem_map.mp hn1
      obtain ⟨y, hy, hye⟩ := List.mem_map.mp hn2
      have hb1 := (mem_lesson_tasks hx).2.2.2
      have hb2 := (mem_create_variables_aux hy).2.2
      omega

theorem create_variables_aux_length {days : List String} {nper : Nat}
    {vds : List Nat} (hnd : days.Nodup) (hvnd : vds.Nodup)
    (hne : days ≠ []) (hp : 1 ≤ nper) :
    ∀ (ls : List Lesson) (li t0 : Nat),
      (create_variables_aux days nper vds li t0 ls).length =
        (ls.map fun l => l.numberOfSingles +
          if vds = [] then 0 else l.numberOfDoubles).sum := by
  intro ls
  induction ls with
  | nil =>
      intro li t0
      simp [create_variables_aux]
  | cons l t ih =>
      intro li t0
      rw [create_variables_aux, List.length_append,
        lesson_tasks_eq hnd hvnd, List.length_append, List.map_cons,
        List.sum_cons, ih]
      rw [if_pos ⟨hne, hp⟩]
      by_cases hv : vds = []
      · rw [if_neg (by rintro ⟨-, h2⟩; exact h2 hv), if_pos hv]
        simp
      · rw [if_pos ⟨hne, hv⟩, if_neg hv]
        simp

theorem create_variables_aux_countP_single {days : List String} {nper : Nat}
    {vds : List Nat} (hnd : days.Nodup) (hvnd : vds.Nodup)
    (hne : days ≠ []) (hp : 1 ≤ nper) :
    ∀ (ls : List Lesson) (li t0 : Nat),
      (create_variables_aux days nper vds li t0 ls).countP
          (fun x => decide (x.type = TaskType.single)) =
        (ls.map fun l => l.numberOfSingles).sum := by
  intro ls
  induction ls with
  | nil =>
      intro li t0
      simp [create_variables_aux]
  | cons l t ih =>
      intro li t0
      rw [create_variables_aux, List.countP_append,
        lesson_tasks_eq hnd hvnd, List.countP_append, List.map_cons,
        List.sum_cons, ih]
      rw [if_pos ⟨hne, hp⟩]
      have hs : ((List.range l.numberOfSingles).map fun k =>
          (⟨t0 + k, li, l, l.classIds, TaskType.single⟩ : TaskInfo)).countP
            (fun x => decide (x.type = TaskType.single))
          = l.numberOfSingles := by
        rw [List.countP_map]
        have : ((List.range l.numberOfSingles).countP
            ((fun x => decide (x.type = TaskType.single)) ∘ fun k =>
              (⟨t0 + k, li, l, l.classIds, TaskType.single⟩ : TaskInfo)))
            = (List.range l.numberOfSingles).length := by
          rw [List.countP_eq_length]
          intro a _
          simp [Function.comp]
        rw [this, List.length_range]
      have hd : ∀ (m : List TaskInfo),
          (m = if days ≠ [] ∧ vds ≠ [] then
            (List.range l.numberOfDoubles).map fun k =>
              (⟨t0 + l.numberOfSingles + k, li, l, l.classIds,
                TaskType.double⟩ : TaskInfo)
          else []) →
          m.countP (fun x => decide (x.type = TaskType.single)) = 0 := by
        intro m hm
        rw [List.countP_eq_zero]
        intro a ha
        rw [hm] at ha
        by_cases hc : days ≠ [] ∧ vds ≠ []
        · rw [if_pos hc] at ha
          rcases List.mem_map.mp ha with ⟨k, -, hke⟩
          subst hke
          simp
        · rw [if_neg hc] at ha
          cases ha
      rw [hs, hd _ rfl]
      omega

theorem create_variables_aux_countP_double {days : List String} {nper : Nat}
    {vds : List Nat} (hnd : days.Nodup) (hvnd : vds.Nodup)
    (hne : days ≠ []) (hp : 1 ≤ nper) :
    ∀ (ls : List Lesson) (li t0 : Nat),
      (create_variables_aux days nper vds li t0 ls).countP
          (fun x => decide (x.type = TaskType.double)) =
        (ls.map fun l =>
          if vds = [] then 0 else l.numberOfDoubles).sum := by
  intro ls
  induction ls with
  | nil =>
      intro li t0
      simp [create_variables_aux]
  | cons l t ih =>
      intro li t0
      rw [create_variables_aux, List.countP_append,
        lesson_tasks_eq hnd hvnd, List.countP_append, List.map_cons,
        List.sum_cons, ih]
      rw [if_pos ⟨hne, hp⟩]
      have hs : ((List.range l.numberOfSingles).map fun k =>
          (⟨t0 + k, li, l, l.classIds, TaskType.single⟩ : TaskInfo)).countP
            (fun x => decide (x.type = TaskType.double)) = 0 := by
        rw [List.countP_eq_zero]
        intro a ha
        rcases List.mem_map.mp ha with ⟨k, -, hke⟩
        subst hke
        simp
      rw [hs]
      by_cases hv : vds = []
      · rw [if_neg (by rintro ⟨-, h2⟩; exact h2 hv), if_pos hv]
        simp
      · rw [if_pos ⟨hne, hv⟩, if_neg hv]
        have : ((List.range l.numberOfDoubles).map fun k =>
            (⟨t0 + l.numberOfSingles + k, li, l, l.classIds,
              TaskType.double⟩ : TaskInfo)).countP
              (fun x => decide (x.type = TaskType.double))
            = l.numberOfDoubles := by
          rw [List.countP_map]
          have : ((List.range l.numberOfDoubles).countP
              ((fun x => decide (x.type = TaskType.double)) ∘ fun k =>
                (⟨t0 + l.numberOfSingles + k, li, l, l.classIds,
                  TaskType.double⟩ : TaskInfo)))
              = (List.range l.numberOfDoubles).length := by
            rw [List.countP_eq_length]
            intro a _
            simp [Function.comp]
          rw [this, List.length_range]
        rw [this]
        omega

theorem create_variables_task_idx_nodup (req : SolverRequest)
    (hnd : (solver_days req).Nodup) :
    ((create_variables req).map fun x => x.task_idx).Nodup :=
  create_variables_aux_task_idx_nodup hnd
    (valid_double_starts_nodup req.config) req.lessons 0 0

theorem create_variables_nodup (req : SolverRequest)
    (hnd : (solver_days req).Nodup) : (create_variables req).Nodup :=
  (create_variables_task_idx_nodup req hnd).of_map _

theorem mem_create_variables {req : SolverRequest} {x : TaskInfo}
    (h : x ∈ create_variables req) :
    x.lesson ∈ req.lessons ∧ x.classIds = x.lesson.classIds :=
  ⟨(mem_create_variables_aux h).1, (mem_create_variables_aux h).2.1⟩

theorem mem_all_class_ids {req : SolverRequest} {x : TaskInfo} {cid : String}
    (hx : x ∈ create_variables req) (hc : cid ∈ x.classIds) :
    cid ∈ all_class_ids req := by
  obtain ⟨hl, hcl⟩ := mem_create_variables hx
  rw [all_class_ids, List.mem_dedup, List.mem_flatMap]
  exact ⟨x.lesson, hl, hcl ▸ hc⟩

theorem type_periods_single {nper : Nat} {vds : List Nat} {t : TaskInfo}
    (ht : t.type = TaskType.single) :
    type_periods nper vds t = List.range' 1 nper := by
  unfold type_periods
  rw [ht]

theorem type_periods_double {nper : Nat} {vds : List Nat} {t : TaskInfo}
    (ht : t.type = TaskType.double) : type_periods nper vds t = vds := by
  unfold type_periods
  rw [ht]

theorem mem_task_slots_iff {days : List String} {nper : Nat} {vds : List Nat}
    {t : TaskInfo} {day : String} {period : Nat} :
    (day, period) ∈ task_slots days nper vds t ↔
      day ∈ days ∧ period ∈ type_periods nper vds t := by
  unfold task_slots
  simp only [List.mem_flatMap, List.mem_map]
  constructor
  · rintro ⟨d, hd, p, hp, he⟩
    injection he with he1 he2
    subst he1
    subst he2
    exact ⟨hd, hp⟩
  · rintro ⟨hd, hp⟩
    exact ⟨day, hd, period, hp, rfl⟩

theorem task_slots_single_mem {days : List String} {nper : Nat}
    {vds : List Nat} {t : TaskInfo} {day : String} {period : Nat}
    (ht : t.type = TaskType.single)
    (h : (day, period) ∈ task_slots days nper vds t) :
    day ∈ days ∧ 1 ≤ period ∧ period < 1 + nper := by
  have hm := mem_task_slots_iff.mp h
  rw [type_periods_single ht, List.mem_range'_1] at hm
  exact ⟨hm.1, hm.2⟩

theorem task_slots_double_mem {days : List String} {nper : Nat}
    {vds : List Nat} {t : TaskInfo} {day : String} {period : Nat}
    (ht : t.type = TaskType.double)
    (h : (day, period) ∈ task_slots days nper vds t) :
    day ∈ days ∧ period ∈ vds := by
  have hm := mem_task_slots_iff.mp h
  rw [type_periods_double ht] at hm
  exact hm

theorem find_assignment_foldl_spec {sol : Solution} {nper : Nat}
    {vds : List Nat} {t : TaskInfo} (days0 : List String) :
    ∀ (ds : List String) (acc : Option (String × Nat)),
      (∀ a ∈ ds, a ∈ days0) →
      (∀ d p, acc = some (d, p) → sol.val t.task_idx d p = true ∧
        d ∈ days0 ∧ p ∈ type_periods nper vds t) →
      ∀ d p, ds.foldl (assignment_step sol nper vds t) acc = some (d, p) →
        sol.val t.task_idx d p = true ∧ d ∈ days0 ∧
          p ∈ type_periods nper vds t := by
  intro ds
  induction ds with
  | nil =>
      intro acc hsub hacc d p h
      exact hacc d p h
  | cons x rest ih =>
      intro acc hsub hacc d p h
      rw [List.foldl_cons] at h
      refine ih (assignment_step sol nper vds t acc x)
        (fun a ha => hsub a (List.mem_cons_of_mem _ ha)) ?_ d p h
      intro d' p' hstep
      have hscan : ∀ (a : Option (String × Nat)),
          (∀ e q, a = some (e, q) → sol.val t.task_idx e q = true ∧
            e ∈ days0 ∧ q ∈ type_periods nper vds t) →
          scan_day sol nper vds t a x = some (d', p') →
          sol.val t.task_idx d' p' = true ∧ d' ∈ days0 ∧
            p' ∈ type_periods nper vds t := by
        intro a ha hsd
        unfold scan_day at hsd
        cases hfind : (type_periods nper vds t).find?
            (fun period => sol.val t.task_idx x period) with
        | some q =>
            rw [hfind] at hsd
            simp only [Option.elim] at hsd
            injection hsd with hsd
            injection hsd with hsd1 hsd2
            subst hsd1
            subst hsd2
            exact ⟨List.find?_some hfind, hsub x (List.mem_cons_self x rest),
              List.mem_of_find?_eq_some hfind⟩
        | none =>
            rw [hfind] at hsd
            simp only [Option.elim] at hsd
            exact ha d' p' hsd
      cases acc with
      | none =>
          simp only [assignment_step] at hstep
          exact hscan none (by intro e q he; cases he) hstep
      | some dp =>
          obtain ⟨d0, p0⟩ := dp
          simp only [assignment_step] at hstep
          by_cases hd0 : d0 = ""
          · rw [if_pos hd0] at hstep
            exact hscan (some (d0, p0)) (fun e q he => hacc e q he) hstep
          · rw [if_neg hd0] at hstep
            exact hacc d' p' hstep

theorem find_assignment_spec {sol : Solution} {days : List String}
    {nper : Nat} {vds : List Nat} {t : TaskInfo} {day : String} {period : Nat}
    (h : find_assignment sol days nper vds t = some (day, period)) :
    sol.val t.task_idx day period = true ∧ day ∈ days ∧
      period ∈ type_periods nper vds t :=
  find_assignment_foldl_spec days days none (fun a ha => ha)
    (by intro d p hx; cases hx) day period h

theorem find_assignment_foldl_none {sol : Solution} {nper : Nat}
    {vds : List Nat} {t : TaskInfo} :
    ∀ (ds : List String) (acc : Option (String × Nat)),
      ds.foldl (assignment_step sol nper vds t) acc = none →
      acc = none ∧ ∀ day ∈ ds,
        (type_periods nper vds t).find?
          (fun period => sol.val t.task_idx day period) = none := by
  intro ds
  induction ds with
  | nil =>
      intro acc h
      exact ⟨h, by intro day hd; cases hd⟩
  | cons x rest ih =>
      intro acc h
      rw [List.foldl_cons] at h
      obtain ⟨hstep, hrest⟩ := ih _ h
      have hax : acc = none ∧ (type_periods nper vds t).find?
          (fun period => sol.val t.task_idx x period) = none := by
        cases acc with
        | none =>
            simp only [assignment_step] at hstep
            unfold scan_day at hstep
            cases hfind : (type_periods nper vds t).find?
                (fun period => sol.val t.task_idx x period) with
            | some q =>
                rw [hfind] at hstep
                simp only [Option.elim] at hstep
                cases hstep
            | none => exact ⟨rfl, rfl⟩
        | some dp =>
            obtain ⟨d0, p0⟩ := dp
            simp only [assignment_step] at hstep
            by_cases hd0 : d0 = ""
            · rw [if_pos hd0] at hstep
              unfold scan_day at hstep
              cases hfind : (type_periods nper vds t).find?
                  (fun period => sol.val t.task_idx x period) with
              | some q =>
                  rw [hfind] at hstep
                  simp only [Option.elim] at hstep
                  cases hstep
              | none =>
                  rw [hfind] at hstep
                  simp only [Option.elim] at hstep
                  cases hstep
            · rw [if_neg hd0] at hstep
              cases hstep
      refine ⟨hax.1, ?_⟩
      intro day hday
      rcases List.mem_cons.mp hday with h1 | h1
      · subst h1
        exact hax.2
      · exact hrest day h1

theorem find_assignment_none {sol : Solution} {days : List String}
    {nper : Nat} {vds : List Nat} {t : TaskInfo}
    (h : find_assignment sol days nper vds t = none) :
    ∀ day ∈ days, ∀ p ∈ type_periods nper vds t,
      ¬ sol.val t.task_idx day p = true := by
  intro day hday p hp
  have hfind := (find_assignment_foldl_none days none h).2 day hday
  have := List.find?_eq_none.mp hfind p hp
  simpa using this

theorem cover_keys_of_placement {sol : Solution} {days : List String}
    {nper : Nat} {vds : List Nat} {t : TaskInfo} {day : String}
    {period q : Nat}
    (hf : find_assignment sol days nper vds t = some (day, period))
    (hq : (t.type = TaskType.single ∧ q = period) ∨
      (t.type = TaskType.double ∧ (q = period ∨ q = period + 1))) :
    ∃ k ∈ cover_keys vds t day q, apply_val sol k = true := by
  obtain ⟨hval, -, hper⟩ := find_assignment_spec hf
  rcases hq with ⟨ht, hqe⟩ | ⟨ht, hqe⟩
  · refine ⟨(t.task_idx, day, period), ?_, hval⟩
    unfold cover_keys
    rw [ht, hqe]
    exact List.mem_singleton.mpr rfl
  · have hpv : period ∈ vds := by
      rw [type_periods_double ht] at hper
      exact hper
    rcases hqe with hqe | hqe
    · refine ⟨(t.task_idx, day, period), ?_, hval⟩
      unfold cover_keys
      rw [ht, hqe]
      exact List.mem_append_right _
        (by rw [if_pos hpv]; exact List.mem_singleton.mpr rfl)
    · refine ⟨(t.task_idx, day, period), ?_, hval⟩
      unfold cover_keys
      rw [ht, hqe]
      apply List.mem_append_left
      have hsub : period + 1 - 1 = period := by omega
      rw [hsub, if_pos hpv]
      exact List.mem_singleton.mpr rfl

theorem le_sum_of_mem_map {α : Type _} {l : List α} (g : α → Nat) {a : α}
    (ha : a ∈ l) : g a ≤ (l.map g).sum := by
  induction l with
  | nil => cases ha
  | cons x t ih =>
      rw [List.map_cons, List.sum_cons]
      rcases List.mem_cons.mp ha with h | h
      · subst h
        omega
      · have := ih h
        omega

theorem add_le_sum_of_two_mem_map {α : Type _} {l : List α} (g : α → Nat)
    {a b : α} (ha : a ∈ l) (hb : b ∈ l) (hab : a ≠ b) :
    g a + g b ≤ (l.map g).sum := by
  induction l with
  | nil => cases ha
  | cons x t ih =>
      rw [List.map_cons, List.sum_cons]
      rcases List.mem_cons.mp ha with h1 | h1
      · rcases List.mem_cons.mp hb with h2 | h2
        · exact absurd (h1.trans h2.symm) hab
        · subst h1
          have := le_sum_of_mem_map g h2
          omega
      · rcases List.mem_cons.mp hb with h2 | h2
        · subst h2
          have := le_sum_of_mem_map g h1
          omega
        · have := ih h1 h2
          omega

theorem sum_map_one {α : Type _} (l : List α) :
    (l.map fun _ => (1 : Nat)).sum = l.length := by
  induction l with
  | nil => rfl
  | cons x t ih =>
      rw [List.map_cons, List.sum_cons, ih, List.length_cons]
      omega

theorem two_le_length_of_two_mem {α : Type _} {l : List α} {a b : α}
    (ha : a ∈ l) (hb : b ∈ l) (hab : a ≠ b) : 2 ≤ l.length := by
  have h := add_le_sum_of_two_mem_map (fun _ => (1 : Nat)) ha hb hab
  simp only [sum_map_one] at h
  omega

theorem length_flatMap_eq {α β : Type _} (l : List α) (f : α → List β) :
    (l.flatMap f).length = (l.map fun a => (f a).length).sum := by
  induction l with
  | nil => rfl
  | cons x t ih =>
      rw [List.flatMap_cons, List.length_append, ih, List.map_cons,
        List.sum_cons]

theorem countP_flatMap_eq {α β : Type _} (l : List α) (f : α → List β)
    (p : β → Bool) :
    (l.flatMap f).countP p = (l.map fun a => (f a).countP p).sum := by
  induction l with
  | nil => rfl
  | cons x t ih =>
      rw [List.flatMap_cons, List.countP_append, ih, List.map_cons,
        List.sum_cons]

theorem class_no_overlap_spec {req : SolverRequest} {sol : Solution}
    (h : check_class_no_overlap req sol = true) {cid : String}
    (hc : cid ∈ all_class_ids req)
    (hlen : 2 ≤ (relevant_tasks req cid).length) {day : String}
    (hd : day ∈ solver_days req) {period : Nat}
    (hp : period ∈ List.range' 1 (num_periods req))
    (hv : 1 < (class_period_vars req cid day period).length) :
    (class_period_vars req cid day period).countP (apply_val sol) ≤ 1 := by
  rw [check_class_no_overlap, List.all_eq_true] at h
  have h1 := h cid hc
  rw [if_neg (by omega)] at h1
  rw [List.all_eq_true] at h1
  have h2 := h1 day hd
  rw [List.all_eq_true] at h2
  have h3 := h2 period hp
  rw [if_pos hv] at h3
  exact of_decide_eq_true h3

theorem no_shared_class_cell {req : SolverRequest} {sol : Solution}
    (hclass : check_class_no_overlap req sol = true) {t1 t2 : TaskInfo}
    (h1 : t1 ∈ create_variables req) (h2 : t2 ∈ create_variables req)
    (hne : t1 ≠ t2) {cid day : String} {q : Nat}
    (hc1 : cid ∈ t1.classIds) (hc2 : cid ∈ t2.classIds)
    (hd : day ∈ solver_days req) (hq : q ∈ List.range' 1 (num_periods req))
    (hcov1 : ∃ k ∈ cover_keys (valid_double_starts req) t1 day q,
      apply_val sol k = true)
    (hcov2 : ∃ k ∈ cover_keys (valid_double_starts req) t2 day q,
      apply_val sol k = true) : False := by
  have hm1 : t1 ∈ relevant_tasks req cid :=
    List.mem_filter.mpr ⟨h1, by simpa using hc1⟩
  have hm2 : t2 ∈ relevant_tasks req cid :=
    List.mem_filter.mpr ⟨h2, by simpa using hc2⟩
  have hcid : cid ∈ all_class_ids req := mem_all_class_ids h1 hc1
  have hlen : 2 ≤ (relevant_tasks req cid).length :=
    two_le_length_of_two_mem hm1 hm2 hne
  have hcnt1 : 0 <
      (cover_keys (valid_double_starts req) t1 day q).countP (apply_val sol) :=
    List.countP_pos_iff.mpr hcov1
  have hcnt2 : 0 <
      (cover_keys (valid_double_starts req) t2 day q).countP (apply_val sol) :=
    List.countP_pos_iff.mpr hcov2
  have hsum : 2 ≤ (class_period_vars req cid day q).countP (apply_val sol) := by
    rw [class_period_vars, countP_flatMap_eq]
    have hadd := add_le_sum_of_two_mem_map
      (fun t => (cover_keys (valid_double_starts req) t day q).countP
        (apply_val sol)) hm1 hm2 hne
    simp only at hadd
    omega
  have hvlen : 1 < (class_period_vars req cid day q).length := by
    rw [class_period_vars, length_flatMap_eq]
    have hl1 : 0 < (cover_keys (valid_double_starts req) t1 day q).length := by
      obtain ⟨k, hk, -⟩ := hcov1
      exact List.length_pos.mpr (List.ne_nil_of_mem hk)
    have hl2 : 0 < (cover_keys (valid_double_starts req) t2 day q).length := by
      obtain ⟨k, hk, -⟩ := hcov2
      exact List.length_pos.mpr (List.ne_nil_of_mem hk)
    have hadd := add_le_sum_of_two_mem_map
      (fun t => (cover_keys (valid_double_starts req) t day q).length)
      hm1 hm2 hne
    simp only at hadd
    omega
  have := class_no_overlap_spec hclass hcid hlen hd hq hvlen
  omega

theorem mem_slots_for_task_elim {sol : Solution} {days : List String}
    {nper : Nat} {vds : List Nat} {t : TaskInfo} {s : TimetableSlot}
    (h : s ∈ slots_for_task sol days nper vds t) :
    sol.pres t.task_idx = true ∧
    ∃ day period, find_assignment sol days nper vds t = some (day, period) ∧
      s.classId ∈ t.classIds ∧ s.day = day ∧
      s.lessonId = t.lesson.lesson_id ∧
      ((t.type = TaskType.single ∧ s.periodNumber = period) ∨
       (t.type = TaskType.double ∧
         (s.periodNumber = period ∨ s.periodNumber = period + 1))) := by
  unfold slots_for_task at h
  cases hb : sol.pres t.task_idx with
  | false =>
      rw [hb] at h
      simp at h
  | true =>
      rw [hb] at h
      rw [if_pos rfl] at h
      cases hf : find_assignment sol days nper vds t with
      | none =>
          rw [hf] at h
          simp at h
      | some dp =>
          obtain ⟨day, period⟩ := dp
          rw [hf] at h
          by_cases hg : day ≠ "" ∧ period ≠ 0
          case neg =>
            simp [hg] at h
          case pos =>
            simp only [if_pos hg] at h
            refine ⟨rfl, day, period, rfl, ?_⟩
            simp only [List.mem_flatMap] at h
            obtain ⟨cid, hcid, hm⟩ := h
            obtain ⟨tid, tli, tlesson, tcids, tty⟩ := t
            cases tty with
            | single =>
                simp only [List.mem_singleton] at hm
                subst hm
                exact ⟨hcid, rfl, rfl, Or.inl ⟨rfl, rfl⟩⟩
            | double =>
                simp only [List.mem_cons, List.mem_singleton,
                  List.not_mem_nil, or_false] at hm
                rcases hm with hm | hm
                · subst hm
                  exact ⟨hcid, rfl, rfl, Or.inr ⟨rfl, Or.inl rfl⟩⟩
                · subst hm
                  exact ⟨hcid, rfl, rfl, Or.inr ⟨rfl, Or.inr rfl⟩⟩

theorem slots_for_task_pairwise {sol : Solution} {days : List String}
    {nper : Nat} {vds : List Nat} {t : TaskInfo} (hnd : t.classIds.Nodup) :
    (slots_for_task sol days nper vds t).Pairwise fun a b =>
      a.classId = b.classId → a.day = b.day →
        a.periodNumber ≠ b.periodNumber := by
  unfold slots_for_task
  cases hb : sol.pres t.task_idx with
  | false => simp
  | true =>
      rw [if_pos rfl]
      cases hf : find_assignment sol days nper vds t with
      | none => simp
      | some dp =>
          obtain ⟨day, period⟩ := dp
          by_cases hg : day ≠ "" ∧ period ≠ 0
          case neg =>
            simp [hg]
          simp only [if_pos hg]
          rw [List.pairwise_flatMap]
          obtain ⟨tid, tli, tlesson, tcids, tty⟩ := t
          constructor
          · intro c hc
            cases tty with
            | single => simp
            | double =>
                rw [List.pairwise_pair]
                intro _ _
                show period ≠ period + 1
                omega
          · have hpw : tcids.Pairwise (· ≠ ·) := hnd
            refine hpw.imp_of_mem ?_
            intro c1 c2 hm1 hm2 hne12 x hx y hy hcx
            exfalso
            apply hne12
            have hxc : x.classId = c1 := by
              cases tty with
              | single =>
                  simp only [List.mem_singleton] at hx
                  subst hx
                  rfl
              | double =>
                  simp only [List.mem_cons, List.mem_singleton,
                    List.not_mem_nil, or_false] at hx
                  rcases hx with hx | hx <;> (subst hx; rfl)
            have hyc : y.classId = c2 := by
              cases tty with
              | single =>
                  simp only [List.mem_singleton] at hy
                  subst hy
                  rfl
              | double =>
                  simp only [List.mem_cons, List.mem_singleton,
                    List.not_mem_nil, or_false] at hy
                  rcases hy with hy | hy <;> (subst hy; rfl)
            rw [← hxc, ← hyc]
            exact hcx

theorem filter_flatMap_eq {α β : Type _} (l : List α) (f : α → List β)
    (p : β → Bool) :
    (l.flatMap f).filter p = l.flatMap fun a => (f a).filter p := by
  induction l with
  | nil => rfl
  | cons x t ih => rw [List.flatMap_cons, List.filter_append, ih,
      List.flatMap_cons]

theorem assignment_count_one {req : SolverRequest} {sol : Solution}
    {t : TaskInfo} (ht : t ∈ create_variables req)
    (hassign : check_task_assignment req sol = true)
    (hpres : sol.pres t.task_idx = true) :
    (task_slots (solver_days req) (num_periods req) (valid_double_starts req)
      t).countP (fun dp => sol.val t.task_idx dp.1 dp.2) = 1 := by
  rw [check_task_assignment, List.all_eq_true] at hassign
  have h := hassign t ht
  rw [hpres] at h
  simpa using h

theorem find_assignment_isSome {req : SolverRequest} {sol : Solution}
    {t : TaskInfo} (ht : t ∈ create_variables req)
    (hassign : check_task_assignment req sol = true)
    (hpres : sol.pres t.task_idx = true) :
    ∃ day period,
      find_assignment sol (solver_days req) (num_periods req)
        (valid_double_starts req) t = some (day, period) := by
  have hcnt := assignment_count_one ht hassign hpres
  have hpos : 0 < (task_slots (solver_days req) (num_periods req)
      (valid_double_starts req) t).countP
      (fun dp => sol.val t.task_idx dp.1 dp.2) := by omega
  obtain ⟨dp, hdp, hv⟩ := List.countP_pos_iff.mp hpos
  obtain ⟨day, period⟩ := dp
  have hm := mem_task_slots_iff.mp hdp
  cases hfa : find_assignment sol (solver_days req) (num_periods req)
      (valid_double_starts req) t with
  | some dp2 => exact ⟨dp2.1, dp2.2, rfl⟩
  | none =>
      exact absurd (by simpa using hv)
        (find_assignment_none hfa day hm.1 period hm.2)

/-! ### Claim theorems -/

/-- C10: `validDoubleStarts` is exactly the set of periods
`1 ≤ p < numberOfPeriods` that are not the `afterPeriod` of an interval slot;
in a 3-period day with an interval after period 2 the only valid double start
is period 1. -/
theorem C10_valid_double_starts :
    (∀ (config : SchoolConfig) (p : Nat),
      p ∈ calculate_valid_double_starts config ↔
        1 ≤ p ∧ p < config.numberOfPeriods ∧
          p ∉ config.intervalSlots.map fun s => s.afterPeriod) ∧
    calculate_valid_double_starts ⟨3, [⟨2, 30⟩], [⟨"Monday", "Mon"⟩]⟩ = [1] := by
  constructor
  · intro config p
    simp only [calculate_valid_double_starts, List.mem_filter,
      List.mem_range'_1, decide_eq_true_eq]
    constructor
    · rintro ⟨⟨h1, h2⟩, h3⟩
      exact ⟨h1, by omega, h3⟩
    · rintro ⟨h1, h2, h3⟩
      exact ⟨⟨h1, by omega⟩, h3⟩
  · decide

/-- C4 counterexample: the claim that a supplied `maxTimeLimit` determines the
per-phase solver time limits is false: with `maxTimeLimit = 5` the configured
limits are still `(3600, 1200, 600)`, and they are identical for any two
supplied limits. -/
theorem C4_time_limit_counterexample :
    phase_time_limits 5 = (3600, 1200, 600) ∧
    (phase_time_limits 5).1 ≠ 5 ∧
    phase_time_limits 5 = phase_time_limits 99999 := by
  exact ⟨rfl, by decide, rfl⟩

/-- C4 amended: the per-phase budgets are the fixed values 3600 s, 1200 s and
600 s; the `time_limit_seconds` argument (the request's `maxTimeLimit`,
default 180) is accepted but never used, so it overrides nothing. -/
theorem C4_phase_budgets :
    ∀ time_limit_seconds : Nat,
      phase_time_limits time_limit_seconds = (3600, 1200, 600) :=
  fun _ => rfl

/-- C6 counterexample: the fixed random seed 42 is not configured for every
solver invocation: the fresh solvers of Phases 2 and 3 never assign
`random_seed`. -/
theorem C6_seed_counterexample :
    phase2_solver_params.random_seed = none ∧
    phase3_solver_params.random_seed = none ∧
    phase2_solver_params.random_seed ≠ some 42 := by
  exact ⟨rfl, rfl, by decide⟩

/-- C6 amended: seed 42 is configured only for the Phase-1 solve; the fresh
solvers of Phases 2 and 3 leave `random_seed` unset (library default), so the
fixed-seed argument for determinism only applies to Phase 1. -/
theorem C6_seed_configuration :
    phase1_solver_params.random_seed = some 42 ∧
    phase2_solver_params.random_seed = none ∧
    phase3_solver_params.random_seed = none :=
  ⟨rfl, rfl, rfl⟩

/-- C2: the `penalty_multiplier` argument has no effect on the built model:
for every request and any two multipliers the phase model is identical, its
objective is exactly the placement-reward terms (no penalty term), and the
hard distribution constraints are part of it unconditionally. -/
theorem C2_penalty_multiplier_no_effect :
    ∀ (req : SolverRequest) (m1 m2 : ℚ),
      build_phase_model req m1 = build_phase_model req m2 ∧
      (set_objective req m1).terms = placement_reward_terms req ∧
      (set_objective req m1).distConstraints = hard_distribution_constraints req :=
  fun _ _ _ => ⟨rfl, rfl, rfl⟩

/-- C1: evaluation at a request that reaches Phase 2 (two same-subject singles
on a one-day config: Phase 1 can place at most one).  The Phase-2 model
(multiplier 10.0) is identical to the Phase-1 model (multiplier 1.0); its hard
distribution constraints are still present and its maximand has only positive
placement-reward terms — no `-100,000`-per-overflow penalty exists, although
the source computes exactly that dead value `base_penalty`. -/
theorem C1_phase2_objective_eval :
    set_objective ex_req_two_singles 10 = set_objective ex_req_two_singles 1 ∧
    (set_objective ex_req_two_singles 10).distConstraints ≠ [] ∧
    ((set_objective ex_req_two_singles 10).terms.all fun wt =>
      decide (0 < wt.1)) = true ∧
    base_penalty 10 = -100000 ∧ base_penalty (1 / 1000) = -10 := by
  refine ⟨rfl, by decide, by decide, ?_, ?_⟩
  · rw [base_penalty, if_pos (by norm_num)]
    norm_num
    rw [show ((-100000 : ℚ)) = ((-100000 : ℤ) : ℚ) from by norm_num,
      Int.ceil_intCast]
  · rw [base_penalty, if_pos (by norm_num)]
    norm_num
    rw [show ((-10 : ℚ)) = ((-10 : ℤ) : ℚ) from by norm_num, Int.ceil_intCast]

/-- C3 counterexample: a time-limited solve (status `UNKNOWN`) whose snapshot
is a genuine partial solution (all hard constraints hold, one of the two
same-subject singles is placed, one is unplaced) is returned with
`status = "success"`, not `status = "partial"` as the claim states: the
`UNKNOWN` branch calls `_build_response(FEASIBLE, ...)`, which only ever
produces `"success"` or `"failed"`. -/
theorem C3_partial_status_counterexample :
    check_all_constraints ex_req_two_singles ex_sol_first_single = true ∧
    (extract_solution ex_req_two_singles ex_sol_first_single).1 ≠ [] ∧
    (extract_solution ex_req_two_singles ex_sol_first_single).2 ≠ [] ∧
    (handle_unknown ex_req_two_singles ex_sol_first_single 1).success = true ∧
    (handle_unknown ex_req_two_singles ex_sol_first_single 1).status
      = "success" ∧
    (handle_unknown ex_req_two_singles ex_sol_first_single 1).status
      ≠ "partial" := by
  exact ⟨by decide, by decide, by decide, by decide, by decide, by decide⟩

/-- C3 amended: when the solver status is `UNKNOWN` and the extracted partial
solution is non-empty, the returned response has `success = true` and
`status = "success"` (not `"partial"`), with the best-so-far slots in `slots`
and the remaining tasks, with diagnostics, in `unplacedTasks`. -/
theorem C3_unknown_response (req : SolverRequest) (sol : Solution) (tm : ℚ)
    (h : (extract_solution req sol).1 ≠ []) :
    (handle_unknown req sol tm).success = true ∧
    (handle_unknown req sol tm).status = "success" ∧
    (handle_unknown req sol tm).slots = (extract_solution req sol).1 ∧
    (handle_unknown req sol tm).unplacedTasks =
      (if (extract_solution req sol).2.length > 0 then
        diagnose_unplaced_tasks req (extract_solution req sol).2
          (extract_solution req sol).1
      else (extract_solution req sol).2) := by
  have hpos : (extract_solution req sol).1.length > 0 := List.length_pos.mpr h
  refine ⟨?_, ?_, ?_, ?_⟩ <;>
    (unfold handle_unknown; rw [if_pos hpos]; rfl)

/-- C3 witness: the amended theorem applied to the concrete partial solution. -/
theorem C3_unknown_response_witness :
    (extract_solution ex_req_two_singles ex_sol_first_single).1 ≠ [] ∧
    ((handle_unknown ex_req_two_singles ex_sol_first_single 1).success = true ∧
     (handle_unknown ex_req_two_singles ex_sol_first_single 1).status
       = "success" ∧
     (handle_unknown ex_req_two_singles ex_sol_first_single 1).slots
       = (extract_solution ex_req_two_singles ex_sol_first_single).1 ∧
     (handle_unknown ex_req_two_singles ex_sol_first_single 1).unplacedTasks =
       (if (extract_solution ex_req_two_singles ex_sol_first_single).2.length
           > 0 then
         diagnose_unplaced_tasks ex_req_two_singles
           (extract_solution ex_req_two_singles ex_sol_first_single).2
           (extract_solution ex_req_two_singles ex_sol_first_single).1
       else (extract_solution ex_req_two_singles ex_sol_first_single).2)) :=
  ⟨by decide,
    C3_unknown_response ex_req_two_singles ex_sol_first_single 1 (by decide)⟩

/-- C5 counterexample: with an interval after period 1 in a two-period day,
`valid_double_starts` is empty and a lesson with one double yields zero
`task_info` records — `stats.totalTasks` is 0, not `s + d = 1` as the claim
asserts for every configuration. -/
theorem C5_total_tasks_counterexample :
    valid_double_starts ex_req_no_double_starts = [] ∧
    total_tasks ex_req_no_double_starts = 0 ∧
    (ex_req_no_double_starts.lessons.map fun l =>
      l.numberOfSingles + l.numberOfDoubles).sum = 1 := by
  exact ⟨by decide, by decide, by decide⟩

/-- C5 amended: with at least one day, distinct day names and at least one
period, the variable factory records `numberOfSingles` single tasks per lesson
always, but `numberOfDoubles` double tasks per lesson only when
`validDoubleStarts` is non-empty (when it is empty, double tasks produce no
`task_info` record at all); every recorded task has a fresh task index. -/
theorem C5_total_tasks (req : SolverRequest) (hne : solver_days req ≠ [])
    (hnd : (solver_days req).Nodup) (hp : 1 ≤ num_periods req) :
    total_tasks req = (req.lessons.map fun l => l.numberOfSingles +
      if valid_double_starts req = [] then 0 else l.numberOfDoubles).sum ∧
    (create_variables req).countP (fun x => decide (x.type = TaskType.single))
      = (req.lessons.map fun l => l.numberOfSingles).sum ∧
    (create_variables req).countP (fun x => decide (x.type = TaskType.double))
      = (req.lessons.map fun l =>
          if valid_double_starts req = [] then 0 else l.numberOfDoubles).sum ∧
    ((create_variables req).map fun x => x.task_idx).Nodup :=
  ⟨create_variables_aux_length hnd (valid_double_starts_nodup req.config)
      hne hp req.lessons 0 0,
    create_variables_aux_countP_single hnd
      (valid_double_starts_nodup req.config) hne hp req.lessons 0 0,
    create_variables_aux_countP_double hnd
      (valid_double_starts_nodup req.config) hne hp req.lessons 0 0,
    create_variables_task_idx_nodup req hnd⟩

/-- C5 witness: the amended count theorem evaluated on a one-day request with
one single and one double and a non-empty `validDoubleStarts`. -/
theorem C5_total_tasks_witness :
    (solver_days ex_req_mixed ≠ [] ∧ (solver_days ex_req_mixed).Nodup ∧
      1 ≤ num_periods ex_req_mixed) ∧
    (total_tasks ex_req_mixed = (ex_req_mixed.lessons.map fun l =>
        l.numberOfSingles +
          if valid_double_starts ex_req_mixed = [] then 0
          else l.numberOfDoubles).sum ∧
      (create_variables ex_req_mixed).countP
          (fun x => decide (x.type = TaskType.single))
        = (ex_req_mixed.lessons.map fun l => l.numberOfSingles).sum ∧
      (create_variables ex_req_mixed).countP
          (fun x => decide (x.type = TaskType.double))
        = (ex_req_mixed.lessons.map fun l =>
            if valid_double_starts ex_req_mixed = [] then 0
            else l.numberOfDoubles).sum ∧
      ((create_variables ex_req_mixed).map fun x => x.task_idx).Nodup) :=
  ⟨⟨by decide, by decide, by decide⟩,
    C5_total_tasks ex_req_mixed (by decide) (by decide) (by decide)⟩

/-- C7 counterexample: a lesson whose `classIds` repeats a class (and has no
subject, so no distribution constraint applies) satisfies every hard
constraint of the model while the extractor emits two identical slot records
for the same `(classId, day, periodNumber)`. -/
theorem C7_class_overlap_counterexample :
    check_all_constraints ex_req_dup_class ex_sol_first_single = true ∧
    (extract_solution ex_req_dup_class ex_sol_first_single).1 =
      [⟨"A", "L1", "Monday", 1, false, false⟩,
       ⟨"A", "L1", "Monday", 1, false, false⟩] ∧
    ¬ (extract_solution ex_req_dup_class ex_sol_first_single).1.Pairwise
      fun a b => a.classId = b.classId → a.day = b.day →
        a.periodNumber ≠ b.periodNumber := by
  refine ⟨by decide, by decide, by decide⟩

/-- C7 amended: for any solution satisfying the class no-overlap constraints,
if the day names are distinct and no lesson repeats a class id, then no two
slot records of the extracted solution share `(classId, day, periodNumber)`
(a placed double occupies both of its periods through its two records). -/
theorem C7_no_class_overlap (req : SolverRequest) (sol : Solution)
    (hclass : check_class_no_overlap req sol = true)
    (hdays : (solver_days req).Nodup)
    (hcls : ∀ l ∈ req.lessons, l.classIds.Nodup) :
    (extract_solution req sol).1.Pairwise fun a b =>
      a.classId = b.classId → a.day = b.day →
        a.periodNumber ≠ b.periodNumber := by
  rw [extract_solution]
  rw [List.pairwise_flatMap]
  constructor
  · intro t ht
    obtain ⟨hl, hcid⟩ := mem_create_variables ht
    exact slots_for_task_pairwise (hcid ▸ hcls t.lesson hl)
  · have hnd : (create_variables req).Nodup := create_variables_nodup req hdays
    refine hnd.imp_of_mem ?_
    intro t1 t2 h1 h2 hne12 x hx y hy hcx hdx
    intro hpx
    obtain ⟨-, d1, p1, hf1, hxc, hxd, -, hcase1⟩ := mem_slots_for_task_elim hx
    obtain ⟨-, d2, p2, hf2, hyc, hyd, -, hcase2⟩ := mem_slots_for_task_elim hy
    have hdeq : d1 = d2 := by rw [← hxd, ← hyd, hdx]
    have hx_in_range : x.periodNumber ∈ List.range' 1 (num_periods req) := by
      rw [List.mem_range'_1]
      have hper := (find_assignment_spec hf1).2.2
      rcases hcase1 with ⟨ht, hpe⟩ | ⟨ht, hpe⟩
      · rw [type_periods_single ht, List.mem_range'_1] at hper
        omega
      · rw [type_periods_double ht] at hper
        have hb := valid_double_starts_bounds hper
        rcases hpe with hpe | hpe <;> omega
    have hd_in : d1 ∈ solver_days req := (find_assignment_spec hf1).2.1
    have hcov1 : ∃ k ∈ cover_keys (valid_double_starts req) t1 d1
        x.periodNumber, apply_val sol k = true := by
      apply cover_keys_of_placement hf1
      rcases hcase1 with ⟨ht, hpe⟩ | ⟨ht, hpe⟩
      · exact Or.inl ⟨ht, hpe⟩
      · exact Or.inr ⟨ht, hpe⟩
    have hcov2 : ∃ k ∈ cover_keys (valid_double_starts req) t2 d1
        x.periodNumber, apply_val sol k = true := by
      rw [hdeq]
      apply cover_keys_of_placement hf2
      rw [hpx]
      rcases hcase2 with ⟨ht, hpe⟩ | ⟨ht, hpe⟩
      · exact Or.inl ⟨ht, hpe⟩
      · exact Or.inr ⟨ht, hpe⟩
    exact no_shared_class_cell hclass h1 h2 hne12 hxc (hcx ▸ hyc) hd_in
      hx_in_range hcov1 hcov2

/-- C7 witness: the amended invariant evaluated on the parallel-lesson
request with its optimal solution. -/
theorem C7_no_class_overlap_witness :
    (check_class_no_overlap ex_req_parallel ex_sol_first_single = true ∧
      (solver_days ex_req_parallel).Nodup ∧
      ∀ l ∈ ex_req_parallel.lessons, l.classIds.Nodup) ∧
    (extract_solution ex_req_parallel ex_sol_first_single).1.Pairwise
      (fun a b => a.classId = b.classId → a.day = b.day →
        a.periodNumber ≠ b.periodNumber) :=
  ⟨⟨by decide, by decide, by decide⟩,
    C7_no_class_overlap ex_req_parallel ex_sol_first_single (by decide)
      (by decide) (by decide)⟩

/-- C8 counterexample: a placed task of a model-feasible solution whose
assigned day is the day named `""` fails the source's
`if assigned_day and assigned_period:` truthiness guard: the extractor emits
no slot record for any of its classes (and no unplaced record either, since
the presence variable is true), refuting the claimed universal emission. -/
theorem C8_parallel_classes_counterexample :
    check_all_constraints ex_req_empty_day ex_sol_empty_day = true ∧
    ex_task_empty_day ∈ create_variables ex_req_empty_day ∧
    ex_sol_empty_day.pres ex_task_empty_day.task_idx = true ∧
    find_assignment ex_sol_empty_day (solver_days ex_req_empty_day)
      (num_periods ex_req_empty_day) (valid_double_starts ex_req_empty_day)
      ex_task_empty_day = some ("", 1) ∧
    "A" ∈ ex_task_empty_day.classIds ∧
    slots_for_task ex_sol_empty_day (solver_days ex_req_empty_day)
      (num_periods ex_req_empty_day) (valid_double_starts ex_req_empty_day)
      ex_task_empty_day = [] ∧
    (extract_solution ex_req_empty_day ex_sol_empty_day).1 = [] ∧
    (extract_solution ex_req_empty_day ex_sol_empty_day).2 = [] := by
  exact ⟨by decide, by decide, by decide, by decide, by decide, by decide,
    by decide, by decide⟩

/-- C8 amended: for every placed task of a solution satisfying the
task-assignment linkage, some `(day, period)` is found; whenever the found
day's name is nonempty (the source's truthiness guard), the extractor emits,
for every entry of the task's `classIds`, one record (single) or a start/end
pair (double), all at that identical `(day, period)`, and all these records
are in the extracted slot list.  A placed task whose assigned day is named
`""` emits nothing. -/
theorem C8_parallel_classes (req : SolverRequest) (sol : Solution)
    (t : TaskInfo) (ht : t ∈ create_variables req)
    (hassign : check_task_assignment req sol = true)
    (hpres : sol.pres t.task_idx = true) :
    ∃ day period,
      find_assignment sol (solver_days req) (num_periods req)
        (valid_double_starts req) t = some (day, period) ∧
      (day ≠ "" →
        slots_for_task sol (solver_days req) (num_periods req)
            (valid_double_starts req) t =
          (t.classIds.flatMap fun cid =>
            match t.type with
            | TaskType.single =>
                [⟨cid, t.lesson.lesson_id, day, period, false, false⟩]
            | TaskType.double =>
                [⟨cid, t.lesson.lesson_id, day, period, true, false⟩,
                 ⟨cid, t.lesson.lesson_id, day, period + 1, false, true⟩]) ∧
        ∀ s ∈ slots_for_task sol (solver_days req) (num_periods req)
            (valid_double_starts req) t,
          s ∈ (extract_solution req sol).1) := by
  obtain ⟨day, period, hf⟩ := find_assignment_isSome ht hassign hpres
  refine ⟨day, period, hf, ?_⟩
  intro hday
  have hper0 : period ≠ 0 := by
    have hper := (find_assignment_spec hf).2.2
    cases htt : t.type with
    | single =>
        rw [type_periods_single htt, List.mem_range'_1] at hper
        omega
    | double =>
        rw [type_periods_double htt] at hper
        have := valid_double_starts_bounds hper
        omega
  constructor
  · unfold slots_for_task
    rw [hpres, if_pos rfl, hf]
    simp only [if_pos (And.intro hday hper0)]
  · intro s hs
    rw [extract_solution]
    exact List.mem_flatMap.mpr ⟨t, ht, hs⟩

/-- C8 witness: scenario S4 — the parallel lesson over classes `A` and `B`
with one single, assigned to the nonempty day `Monday`. -/
theorem C8_parallel_classes_witness :
    (ex_task_parallel ∈ create_variables ex_req_parallel ∧
      check_task_assignment ex_req_parallel ex_sol_first_single = true ∧
      ex_sol_first_single.pres ex_task_parallel.task_idx = true) ∧
    (∃ day period,
      find_assignment ex_sol_first_single (solver_days ex_req_parallel)
        (num_periods ex_req_parallel) (valid_double_starts ex_req_parallel)
        ex_task_parallel = some (day, period) ∧
      (day ≠ "" →
        slots_for_task ex_sol_first_single (solver_days ex_req_parallel)
            (num_periods ex_req_parallel)
            (valid_double_starts ex_req_parallel) ex_task_parallel =
          (ex_task_parallel.classIds.flatMap fun cid =>
            match ex_task_parallel.type with
            | TaskType.single =>
                [⟨cid, ex_task_parallel.lesson.lesson_id, day, period, false,
                  false⟩]
            | TaskType.double =>
                [⟨cid, ex_task_parallel.lesson.lesson_id, day, period, true,
                  false⟩,
                 ⟨cid, ex_task_parallel.lesson.lesson_id, day, period + 1,
                  false, true⟩]) ∧
        ∀ s ∈ slots_for_task ex_sol_first_single (solver_days ex_req_parallel)
            (num_periods ex_req_parallel)
            (valid_double_starts ex_req_parallel) ex_task_parallel,
          s ∈ (extract_solution ex_req_parallel ex_sol_first_single).1)) :=
  ⟨⟨by decide, by decide, by decide⟩,
    C8_parallel_classes ex_req_parallel ex_sol_first_single ex_task_parallel
      (by decide) (by decide) (by decide)⟩

/-- C9 counterexample: a model-feasible placed double whose lesson repeats a
class id is emitted once per `classIds` entry, so class `A` receives four
records, not the claimed exactly two. -/
theorem C9_double_extraction_counterexample :
    check_all_constraints ex_req_dup_double ex_sol_first_single = true ∧
    ex_task_dup_double ∈ create_variables ex_req_dup_double ∧
    ex_task_dup_double.type = TaskType.double ∧
    ex_sol_first_single.pres ex_task_dup_double.task_idx = true ∧
    find_assignment ex_sol_first_single (solver_days ex_req_dup_double)
      (num_periods ex_req_dup_double) (valid_double_starts ex_req_dup_double)
      ex_task_dup_double = some ("Monday", 1) ∧
    ((slots_for_task ex_sol_first_single (solver_days ex_req_dup_double)
        (num_periods ex_req_dup_double)
        (valid_double_starts ex_req_dup_double) ex_task_dup_double).filter
      (fun s => s.classId == "A")).length = 4 := by
  exact ⟨by decide, by decide, by decide, by decide, by decide, by decide⟩

/-- C9 amended: for a placed double found at `(day, p)` with a nonempty day
name, `p` is a member of `validDoubleStarts`, and the extractor emits a start
record at `p` and an end record at `p + 1` once per occurrence of a class in
the task's `classIds` — exactly two records per class when `classIds` has no
duplicate entries; both records are in the extracted slots.  A lesson that
repeats a class id receives one pair per occurrence. -/
theorem C9_double_extraction (req : SolverRequest) (sol : Solution)
    (t : TaskInfo) (ht : t ∈ create_variables req)
    (htype : t.type = TaskType.double)
    (hpres : sol.pres t.task_idx = true) (day : String) (period : Nat)
    (hf : find_assignment sol (solver_days req) (num_periods req)
      (valid_double_starts req) t = some (day, period))
    (hday : day ≠ "") (hnd : t.classIds.Nodup) (c : String)
    (hc : c ∈ t.classIds) :
    period ∈ valid_double_starts req ∧
    (slots_for_task sol (solver_days req) (num_periods req)
        (valid_double_starts req) t).filter (fun s => s.classId == c) =
      [⟨c, t.lesson.lesson_id, day, period, true, false⟩,
       ⟨c, t.lesson.lesson_id, day, period + 1, false, true⟩] ∧
    (⟨c, t.lesson.lesson_id, day, period, true, false⟩ : TimetableSlot)
      ∈ (extract_solution req sol).1 ∧
    (⟨c, t.lesson.lesson_id, day, period + 1, false, true⟩ : TimetableSlot)
      ∈ (extract_solution req sol).1 := by
  have hpv : period ∈ valid_double_starts req := by
    have hper := (find_assignment_spec hf).2.2
    rw [type_periods_double htype] at hper
    exact hper
  have hper0 : period ≠ 0 := by
    have := valid_double_starts_bounds hpv
    omega
  have hslots : slots_for_task sol (solver_days req) (num_periods req)
      (valid_double_starts req) t =
      t.classIds.flatMap fun cid =>
        [(⟨cid, t.lesson.lesson_id, day, period, true, false⟩ :
            TimetableSlot),
         ⟨cid, t.lesson.lesson_id, day, period + 1, false, true⟩] := by
    unfold slots_for_task
    rw [hpres, if_pos rfl, hf]
    simp only [if_pos (And.intro hday hper0)]
    rw [htype]
  refine ⟨hpv, ?_, ?_, ?_⟩
  · rw [hslots, filter_flatMap_eq]
    rw [flatMap_eq_of_unique hc hnd ?_]
    · rw [List.filter_cons, List.filter_cons]
      simp
    · intro b hb hbc
      rw [List.filter_cons, List.filter_cons]
      have hbeq : (b == c) = false := beq_eq_false_iff_ne.mpr hbc
      simp [hbeq]
  · rw [extract_solution]
    refine List.mem_flatMap.mpr ⟨t, ht, ?_⟩
    rw [hslots]
    exact List.mem_flatMap.mpr ⟨c, hc, by simp⟩
  · rw [extract_solution]
    refine List.mem_flatMap.mpr ⟨t, ht, ?_⟩
    rw [hslots]
    exact List.mem_flatMap.mpr ⟨c, hc, by simp⟩

/-- C9 witness: scenario S2 — the double placed at period 1 of a 3-period day
named `Monday` with an interval after period 2. -/
theorem C9_double_extraction_witness :
    (ex_task_double ∈ create_variables ex_req_double ∧
      ex_task_double.type = TaskType.double ∧
      ex_sol_first_single.pres ex_task_double.task_idx = true ∧
      find_assignment ex_sol_first_single (solver_days ex_req_double)
        (num_periods ex_req_double) (valid_double_starts ex_req_double)
        ex_task_double = some ("Monday", 1) ∧
      ("Monday" : String) ≠ "" ∧
      ex_task_double.classIds.Nodup ∧ "A" ∈ ex_task_double.classIds) ∧
    ((1 : Nat) ∈ valid_double_starts ex_req_double ∧
      (slots_for_task ex_sol_first_single (solver_days ex_req_double)
          (num_periods ex_req_double) (valid_double_starts ex_req_double)
          ex_task_double).filter (fun s => s.classId == "A") =
        [⟨"A", ex_task_double.lesson.lesson_id, "Monday", 1, true, false⟩,
         ⟨"A", ex_task_double.lesson.lesson_id, "Monday", 1 + 1, false,
          true⟩] ∧
      (⟨"A", ex_task_double.lesson.lesson_id, "Monday", 1, true, false⟩ :
          TimetableSlot)
        ∈ (extract_solution ex_req_double ex_sol_first_single).1 ∧
      (⟨"A", ex_task_double.lesson.lesson_id, "Monday", 1 + 1, false, true⟩ :
          TimetableSlot)
        ∈ (extract_solution ex_req_double ex_sol_first_single).1) :=
  ⟨⟨by decide, by decide, by decide, by decide, by decide, by decide,
      by decide⟩,
    C9_double_extraction ex_req_double ex_sol_first_single ex_task_double
      (by decide) (by decide) (by decide) "Monday" 1 (by decide) (by decide)
      (by decide) "A" (by decide)⟩

end Sched
